import Mathlib

/-
Verification of the worldlab procedural generation pipeline.

The TypeScript sources (packages/generators: WorldGenerator.ts,
generators/HeightmapGenerator.ts, generators/BiomeGenerator.ts,
generators/ObjectPlacer.ts, utils/hash.ts, and the simplex-noise stub) are
shallowly embedded below.  JS numbers are modeled with exact rational
arithmetic (Float32Array storage rounding is not modeled); transcendental
Math functions (sqrt, cos, sin, PI) are parameters of the embedding; the
process-global Math.random is modeled as an explicit stream of draws in
[0,1).  Typed arrays are modeled as index functions; Uint8Array element
storage keeps its wrap-around (mod 256) semantics.
-/

/-! ## utils/hash.ts : generateHash -/

/-- Inputs to generateHash: JS passes numbers or strings, each converted with
String(input). -/
inductive HashInput where
  | num : ℤ → HashInput
  | str : String → HashInput
deriving DecidableEq

/-- Wrap an integer to signed 32-bit, the effect of the JS `|0` coercion. -/
def toInt32 (n : ℤ) : ℤ := (n + 2 ^ 31) % 2 ^ 32 - 2 ^ 31

/-- Decimal digit char codes of a natural number (fuel-based division loop). -/
def natDigitCodes : ℕ → ℕ → List ℕ
  | 0, _ => []
  | _ + 1, n => if n < 10 then [48 + n] else natDigitCodes n (n / 10) ++ [48 + n % 10]

/-- Char codes of the JS decimal string of an integer (45 is the minus sign). -/
def intCharCodes (n : ℤ) : List ℕ :=
  if n < 0 then 45 :: natDigitCodes n.natAbs n.natAbs else natDigitCodes n.toNat n.toNat

/-- Char codes of String(input) for each supported input kind. -/
def jsStringCodes : HashInput → List ℕ
  | HashInput.num n => intCharCodes n
  | HashInput.str s => s.toList.map Char.toNat

/-- One step of the hash loop: hash = (hash << 5) - hash + charCode; hash |= 0.
The JS `<<` operator itself wraps its result to 32 bits. -/
def hashChar (h : ℤ) (c : ℕ) : ℤ := toInt32 (toInt32 (h * 32) - h + c)

/-- Hash the char codes of one input into the accumulator. -/
def hashCodes (h : ℤ) (cs : List ℕ) : ℤ := cs.foldl hashChar h

/-- generateHash(...inputs): fold all inputs' string codes starting from 0. -/
def generateHash (inputs : List HashInput) : ℤ :=
  inputs.foldl (fun h i => hashCodes h (jsStringCodes i)) 0

/-! ## stub-simplex.ts : createNoise2D

The repository's noise is a stub: `createNoise2D = (prng?) => (x, y) =>
Math.random() * 2 - 1`.  It ignores both the prng it was built from and the
coordinates it is sampled at, and reads the process-global Math.random on
every call.  We model Math.random as a stream `ℕ → ℚ` indexed by draw
count. -/

/-- The stubbed 2D noise: `Math.random() * 2 - 1`, ignoring prng and both
coordinates.  `k` is the index of the Math.random draw this call consumes. -/
def jsNoise2D (stream : ℕ → ℚ) (k : ℕ) (_x _y : ℚ) : ℚ := stream k * 2 - 1

/-! ## generators/HeightmapGenerator.ts -/

/-- config.heightmapParams. -/
structure HeightmapParams where
  frequency : ℚ
  octaves : ℕ
  persistence : ℚ
  lacunarity : ℚ
  amplitude : ℚ
deriving DecidableEq

/-- The FBM octave loop of HeightmapGenerator.generate.  Arguments after the
coordinates: the Math.random draw index for the next octave, the remaining
octave count, then the running (height, maxValue, amp, freq).  Returns the
accumulated (height, maxValue) pair whose quotient is the cell value. -/
def fbmGo (stream : ℕ → ℚ) (pers lac wx wz : ℚ) :
    ℕ → ℕ → ℚ → ℚ → ℚ → ℚ → ℚ × ℚ
  | _, 0, h, m, _, _ => (h, m)
  | base, n + 1, h, m, amp, freq =>
      let value := jsNoise2D stream base (wx * freq) (wz * freq)
      fbmGo stream pers lac wx wz (base + 1) n (h + value * amp) (m + amp)
        (amp * pers) (freq * lac)

/-- HeightmapGenerator.generate: the padded (chunkSize+2)² heightmap as a
function of the linear cell index.  Cells are visited z-major, and each cell
consumes `octaves` Math.random draws, so cell i's draws start at
i * octaves. -/
def heightmapGenerate (p : HeightmapParams) (stream : ℕ → ℚ) (coord : ℤ × ℤ)
    (chunkSize : ℕ) : ℕ → ℚ := fun i =>
  let dataSize := chunkSize + 2
  let z := i / dataSize
  let x := i % dataSize
  let worldX : ℚ := ((coord.1 * chunkSize - 1 + x : ℤ) : ℚ)
  let worldZ : ℚ := ((coord.2 * chunkSize - 1 + z : ℤ) : ℚ)
  let hm := fbmGo stream p.persistence p.lacunarity worldX worldZ
    (i * p.octaves) p.octaves 0 0 p.amplitude p.frequency
  hm.1 / hm.2

/-- HeightmapGenerator.extractCenterArea: strip the padding border. -/
def extractCenterArea (padded : ℕ → ℚ) (chunkSize padding : ℕ) : ℕ → ℚ :=
  fun i =>
    let paddedSize := chunkSize + padding * 2
    let z := i / chunkSize
    let x := i % chunkSize
    padded ((z + padding) * paddedSize + (x + padding))

/-! ## generators/BiomeGenerator.ts -/

/-- config.temperatureParams. -/
structure TemperatureParams where
  baseTemperature : ℚ
  frequency : ℚ
  altitudeLapseRate : ℚ
deriving DecidableEq

/-- config.moistureParams. -/
structure MoistureParams where
  frequency : ℚ
deriving DecidableEq

/-- A biome definition (display name and color omitted; they are never read
by the generation pipeline).  objectDensity is an optional field in the
TypeScript interface. -/
structure BiomeConfig where
  id : ℤ
  objectDensity : Option ℚ
deriving DecidableEq

/-- JS Uint8Array element storage: wrap an integer to [0, 255]. -/
def jsUint8 (n : ℤ) : ℕ := (n % 256).toNat

/-- Read lookupTable[mi][ti].  A missing row or entry reads as undefined in
JS and is stored as 0 by the Uint8Array; getD 0 mirrors that. -/
def tableEntry (table : List (List ℤ)) (mi ti : ℕ) : ℤ :=
  (table.getD mi []).getD ti 0

/-- BiomeGenerator.getBiomeFromWhittaker: clamp floor(value*3) to [0,2] on
both axes, then index the table as lookupTable[moistureIndex][tempIndex]. -/
def getBiomeFromWhittaker (table : List (List ℤ)) (temperature moisture : ℚ) : ℤ :=
  let tempIndex := ⌊temperature * 3⌋
  let moistIndex := ⌊moisture * 3⌋
  let ti := min 2 (max 0 tempIndex)
  let mi := min 2 (max 0 moistIndex)
  tableEntry table mi.toNat ti.toNat

/-- The temperature field of BiomeGenerator.generate, per unpadded cell
index.  `tempSample i` is the temperature-noise sample for cell i (the stub
noise makes it a Math.random draw); `hm` is the extracted heightmap. -/
def biomeTemperature (tp : TemperatureParams) (tempSample : ℕ → ℚ) (hm : ℕ → ℚ) :
    ℕ → ℚ := fun i =>
  let temp := (tempSample i + 1) * 0.5
  let heightAdjustment := hm i * tp.altitudeLapseRate
  max 0 (min 1 (temp - heightAdjustment))

/-- The moisture field of BiomeGenerator.generate: remapped to [0,1] with no
altitude adjustment and no clamp. -/
def biomeMoisture (moistSample : ℕ → ℚ) : ℕ → ℚ := fun i =>
  (moistSample i + 1) * 0.5

/-- The biomemap field of BiomeGenerator.generate: classify each cell and
store the id in a Uint8Array. -/
def biomeMap (table : List (List ℤ)) (tp : TemperatureParams)
    (tempSample moistSample : ℕ → ℚ) (hm : ℕ → ℚ) : ℕ → ℕ := fun i =>
  jsUint8 (getBiomeFromWhittaker table
    (biomeTemperature tp tempSample hm i) (biomeMoisture moistSample i))

/-! ## types.ts / WorldGenerator.ts : configuration -/

/-- GeneratorConfig (the full interface: every field required). -/
structure GeneratorConfig where
  seed : HashInput
  chunkSize : ℕ
  worldScale : ℚ
  heightmapParams : HeightmapParams
  temperatureParams : TemperatureParams
  moistureParams : MoistureParams
  biomes : List BiomeConfig
  biomeLookupTable : List (List ℤ)
deriving DecidableEq

/-- WorldGenerator.getDefaultBiomes (densities as exact rationals). -/
def getDefaultBiomes : List BiomeConfig :=
  [⟨0, some 0.1⟩, ⟨1, some 0.3⟩, ⟨2, some 0.1⟩, ⟨3, some 0.8⟩, ⟨4, some 0.7⟩,
   ⟨5, some 0.4⟩, ⟨6, some 0.9⟩, ⟨7, some 0.9⟩, ⟨8, some 1⟩]

/-- WorldGenerator.getDefaultBiomeLookupTable (Whittaker table). -/
def getDefaultBiomeLookupTable : List (List ℤ) :=
  [[0, 1, 2], [3, 4, 5], [6, 7, 8]]

/-- WorldGenerator.initializeConfig.  The defaults object is spread first and
the caller's config second, with one nested spread per parameter group; since
the TypeScript GeneratorConfig type makes every field required, each default
is overridden and the provided config passes through unchanged.  No check
rejects any field value. -/
def initializeConfig (config : GeneratorConfig) : GeneratorConfig :=
  { seed := config.seed
    chunkSize := config.chunkSize
    worldScale := config.worldScale
    heightmapParams := config.heightmapParams
    temperatureParams := config.temperatureParams
    moistureParams := config.moistureParams
    biomes := config.biomes
    biomeLookupTable := config.biomeLookupTable }

/-- Partial<GeneratorConfig>, the argument of WorldGenerator.updateConfig. -/
structure PartialConfig where
  seed : Option HashInput := none
  chunkSize : Option ℕ := none
  worldScale : Option ℚ := none
  heightmapParams : Option HeightmapParams := none
  temperatureParams : Option TemperatureParams := none
  moistureParams : Option MoistureParams := none
  biomes : Option (List BiomeConfig) := none
  biomeLookupTable : Option (List (List ℤ)) := none

/-- The WorldGenerator instance state: the merged config and the private
globalSeed, both set by the constructor. -/
structure WorldGenState where
  config : GeneratorConfig
  globalSeed : ℤ

/-- The WorldGenerator constructor: merge the config and hash the seed once
if it is a string (a numeric seed is used as-is). -/
def mkWorldGenerator (config : GeneratorConfig) : WorldGenState :=
  { config := initializeConfig config
    globalSeed :=
      match config.seed with
      | HashInput.str s => generateHash [HashInput.str s]
      | HashInput.num n => n }

/-- WorldGenerator.updateConfig: shallow-spread the partial config over the
stored one.  globalSeed is not touched. -/
def updateConfig (w : WorldGenState) (p : PartialConfig) : WorldGenState :=
  { config :=
      { seed := p.seed.getD w.config.seed
        chunkSize := p.chunkSize.getD w.config.chunkSize
        worldScale := p.worldScale.getD w.config.worldScale
        heightmapParams := p.heightmapParams.getD w.config.heightmapParams
        temperatureParams := p.temperatureParams.getD w.config.temperatureParams
        moistureParams := p.moistureParams.getD w.config.moistureParams
        biomes := p.biomes.getD w.config.biomes
        biomeLookupTable := p.biomeLookupTable.getD w.config.biomeLookupTable }
    globalSeed := w.globalSeed }

/-- The per-chunk seed derived inside generateChunk:
generateHash(globalSeed, chunkCoord.x, chunkCoord.z).  It is also stored as
metadata.seed. -/
def chunkSeedOf (w : WorldGenState) (coord : ℤ × ℤ) : ℤ :=
  generateHash [HashInput.num w.globalSeed, HashInput.num coord.1,
    HashInput.num coord.2]

/-! ## generators/ObjectPlacer.ts : poissonDiskSampling

The JS Math library is abstracted: `sqrt2` stands for Math.sqrt(2), `piV`
for Math.PI, `cosF`/`sinF`/`sqrtF` for Math.cos/Math.sin/Math.sqrt.  The
alea prng handed to the placer is abstracted as the stream of its draws. -/

/-- A 2D sample point (x, z). -/
abbrev Pt := ℚ × ℚ

/-- Squared planar distance; the source compares
Math.sqrt(dx² + dz²) < minDistance. -/
def distSq (p q : Pt) : ℚ := (p.1 - q.1) ^ 2 + (p.2 - q.2) ^ 2

/-- Everything poissonDiskSampling reads beside its mutable state. -/
structure PDEnv where
  chunkSize : ℚ
  minDistance : ℚ
  maxAttempts : ℕ
  stream : ℕ → ℚ
  sqrt2 : ℚ
  piV : ℚ
  cosF : ℚ → ℚ
  sinF : ℚ → ℚ
  sqrtF : ℚ → ℚ

/-- cellSize = minDistance / Math.sqrt(2). -/
def PDEnv.cellSize (e : PDEnv) : ℚ := e.minDistance / e.sqrt2

/-- gridWidth = Math.ceil(chunkSize / cellSize). -/
def PDEnv.gridWidth (e : PDEnv) : ℤ := ⌈e.chunkSize / e.cellSize⌉

/-- The (row, column) = (gridZ, gridX) cell of a point, as the source
computes it with Math.floor(coord / cellSize). -/
def PDEnv.cellOf (e : PDEnv) (p : Pt) : ℤ × ℤ :=
  (⌊p.2 / e.cellSize⌋, ⌊p.1 / e.cellSize⌋)

/-- The mutable state of the sampling loop: the accepted points in
acceptance order, the occupancy grid (-1 for an empty cell, otherwise a
point index), the active list of point indices, and the number of prng
draws consumed so far. -/
structure PDState where
  points : List Pt
  grid : ℤ × ℤ → ℤ
  active : List ℕ
  k : ℕ

/-- Functional update of one grid cell. -/
def updGrid (g : ℤ × ℤ → ℤ) (c : ℤ × ℤ) (v : ℤ) : ℤ × ℤ → ℤ :=
  fun c2 => if c2 = c then v else g c2

/-- The search offsets -searchRadius..searchRadius with searchRadius = 2. -/
def searchOffsets : List ℤ := [-2, -1, 0, 1, 2]

/-- ObjectPlacer.isValidPoint: scan the 5×5 grid neighborhood of the
candidate's cell; inside grid bounds, a non-empty cell's point must not be
closer than minDistance. -/
def isValidPoint (e : PDEnv) (point : Pt) (points : List Pt)
    (grid : ℤ × ℤ → ℤ) : Bool :=
  let gridX := ⌊point.1 / e.cellSize⌋
  let gridZ := ⌊point.2 / e.cellSize⌋
  searchOffsets.all fun dz => searchOffsets.all fun dx =>
    let checkX := gridX + dx
    let checkZ := gridZ + dz
    if 0 ≤ checkX ∧ checkX < e.gridWidth ∧ 0 ≤ checkZ ∧ checkZ < e.gridWidth then
      let pointIndex := grid (checkZ, checkX)
      if pointIndex = -1 then true
      else
        let otherPoint := points.getD pointIndex.toNat (0, 0)
        decide (¬ (e.sqrtF (distSq point otherPoint) < e.minDistance))
    else true

/-- The inner retry loop (up to maxAttempts candidates around the chosen
active point).  Each attempt consumes two draws (angle, distance); a
candidate is accepted if it lies inside the chunk footprint and passes
isValidPoint.  Returns the accepted point, if any, and the draw counter
after the loop. -/
def pdAttempts (e : PDEnv) (points : List Pt) (grid : ℤ × ℤ → ℤ)
    (point : Pt) : ℕ → ℕ → Option Pt × ℕ
  | 0, k => (none, k)
  | n + 1, k =>
      let angle := e.stream k * e.piV * 2
      let distance := e.minDistance + e.stream (k + 1) * e.minDistance
      let newPoint : Pt :=
        (point.1 + e.cosF angle * distance, point.2 + e.sinF angle * distance)
      let k2 := k + 2
      if 0 ≤ newPoint.1 ∧ newPoint.1 < e.chunkSize ∧
          0 ≤ newPoint.2 ∧ newPoint.2 < e.chunkSize then
        if isValidPoint e newPoint points grid then (some newPoint, k2)
        else pdAttempts e points grid point n k2
      else pdAttempts e points grid point n k2

/-- One iteration of the outer while loop: pick a random active point, try
to place a neighbor; on success append the point, register it in the grid
and activate it, otherwise retire the chosen active entry. -/
def pdStep (e : PDEnv) (st : PDState) : PDState :=
  if st.active = [] then st
  else
    let randomIndex := (⌊e.stream st.k * st.active.length⌋).toNat
    let pointIndex := st.active.getD randomIndex 0
    let point := st.points.getD pointIndex (0, 0)
    match pdAttempts e st.points st.grid point e.maxAttempts (st.k + 1) with
    | (some newPoint, k2) =>
        { points := st.points ++ [newPoint]
          grid := updGrid st.grid (e.cellOf newPoint) st.points.length
          active := st.active ++ [st.points.length]
          k := k2 }
    | (none, k2) =>
        { points := st.points
          grid := st.grid
          active := st.active.eraseIdx randomIndex
          k := k2 }

/-- The initial state: one uniformly drawn point, registered in the grid
and active. -/
def pdInit (e : PDEnv) : PDState :=
  let firstPoint : Pt := (e.stream 0 * e.chunkSize, e.stream 1 * e.chunkSize)
  { points := [firstPoint]
    grid := updGrid (fun _ => -1) (e.cellOf firstPoint) 0
    active := [0]
    k := 2 }

/-- Run the while loop; `fuel` bounds the number of iterations (the source
loops until the active list empties). -/
def pdRun (e : PDEnv) : ℕ → PDState → PDState
  | 0, st => st
  | n + 1, st => if st.active = [] then st else pdRun e n (pdStep e st)

/-- ObjectPlacer.poissonDiskSampling: the accepted points. -/
def poissonDiskSampling (e : PDEnv) (fuel : ℕ) : List Pt :=
  (pdRun e fuel (pdInit e)).points

/-! ## generators/ObjectPlacer.ts : placeObjects -/

/-- An ObjectInstance: archetype tag, world position, rotation quaternion
(only the y component varies), isotropic scale. -/
structure ObjectInstance where
  type : String
  position : ℚ × ℚ × ℚ
  rotation : ℚ × ℚ × ℚ × ℚ
  scale : ℚ × ℚ × ℚ
deriving DecidableEq

/-- The hardcoded biomeObjects table of placeObjects, keyed by biome id (a
Uint8Array value); any other id reads as undefined and `|| []` yields the
empty list. -/
def biomeObjects (biomeId : ℕ) : List String :=
  if biomeId = 0 then [("rock_small")]
  else if biomeId = 1 then [("grass_tall")]
  else if biomeId = 2 then [("cactus"), ("rock_desert")]
  else if biomeId = 3 then [("tree_pine"), ("tree_spruce")]
  else if biomeId = 4 then [("tree_oak"), ("tree_birch")]
  else if biomeId = 5 then [("tree_acacia"), ("rock_savanna")]
  else if biomeId = 6 then [("tree_pine_tall")]
  else if biomeId = 7 then [("tree_jungle"), ("bush_fern")]
  else if biomeId = 8 then [("tree_palm"), ("tree_tropical"), ("bush_tropical")]
  else []

/-- The JS expression `biome?.objectDensity || 0.5`: the configured density
is used unless the biome is absent, the field is absent, or the value is 0
(0 is falsy in JS, so `||` replaces it with the 0.5 default). -/
def effectiveDensity (biomes : List BiomeConfig) (biomeId : ℤ) : ℚ :=
  match biomes.find? (fun b => b.id = biomeId) with
  | some b =>
      match b.objectDensity with
      | some d => if d = 0 then 0.5 else d
      | none => 0.5
  | none => 0.5

/-- The body of the per-point loop of placeObjects, folding (draw counter,
emitted objects) over the sampled points.  A point whose biome has no
archetypes consumes no draw; otherwise one draw decides acceptance against
the biome's density and three more pick archetype, rotation and scale. -/
def placeStep (cfg : GeneratorConfig) (coord : ℤ × ℤ)
    (biomemap : ℕ → ℕ) (heightmap : ℕ → ℚ) (stream : ℕ → ℚ) (piV : ℚ)
    (st : ℕ × List ObjectInstance) (point : Pt) : ℕ × List ObjectInstance :=
  let k := st.1
  let objects := st.2
  let x := ⌊point.1⌋
  let z := ⌊point.2⌋
  let index := z * cfg.chunkSize + x
  if 0 ≤ index ∧ index < (cfg.chunkSize ^ 2 : ℤ) then
    let biomeId := biomemap index.toNat
    let height := heightmap index.toNat
    let objectTypes := biomeObjects biomeId
    if objectTypes = [] then (k, objects)
    else
      let density := effectiveDensity cfg.biomes biomeId
      if stream k < density then
        let type := objectTypes.getD (⌊stream (k + 1) * objectTypes.length⌋).toNat ""
        let worldX := (coord.1 * cfg.chunkSize : ℤ) + point.1
        let worldZ := (coord.2 * cfg.chunkSize : ℤ) + point.2
        let worldY := height * cfg.worldScale
        let rotationY := stream (k + 2) * piV * 2
        let scaleVariation := 0.8 + stream (k + 3) * 0.4
        (k + 4, objects ++ [{ type := type
                              position := (worldX, worldY, worldZ)
                              rotation := (0, rotationY, 0, 1)
                              scale := (scaleVariation, scaleVariation, scaleVariation) }])
      else (k + 1, objects)
  else (k, objects)

/-- ObjectPlacer.placeObjects, given the list of sampled candidate points
and the prng draw counter left by the sampling. -/
def placeObjectsFrom (cfg : GeneratorConfig) (coord : ℤ × ℤ)
    (biomemap : ℕ → ℕ) (heightmap : ℕ → ℚ) (stream : ℕ → ℚ) (piV : ℚ)
    (points : List Pt) (k0 : ℕ) : List ObjectInstance :=
  (points.foldl (placeStep cfg coord biomemap heightmap stream piV) (k0, [])).2

/-! ## WorldGenerator.ts : spiral enumeration and the batch loop -/

/-- The walker state of the spiral coordinate loop: position and step
direction. -/
structure SpiralState where
  x : ℤ
  z : ℤ
  dx : ℤ
  dz : ℤ
deriving DecidableEq

/-- The turn condition `x === z || (x < 0 && x === -z) || (x > 0 && x === 1 - z)`. -/
def turnCond (x z : ℤ) : Prop :=
  x = z ∨ (x < 0 ∧ x = -z) ∨ (0 < x ∧ x = 1 - z)

instance (x z : ℤ) : Decidable (turnCond x z) := by
  unfold turnCond; infer_instance

/-- One loop iteration's state change: turn if the condition holds, then
step. -/
def spiralIter (s : SpiralState) : SpiralState :=
  let t := if turnCond s.x s.z then { s with dx := -s.dz, dz := s.dx } else s
  { t with x := t.x + t.dx, z := t.z + t.dz }

/-- Iterate the walker n times. -/
def spiralIterN : ℕ → SpiralState → SpiralState
  | 0, s => s
  | n + 1, s => spiralIterN n (spiralIter s)

/-- The positions visited by the first n loop iterations. -/
def spiralVisited : ℕ → SpiralState → List (ℤ × ℤ)
  | 0, _ => []
  | n + 1, s => (s.x, s.z) :: spiralVisited n (spiralIter s)

/-- The loop body in coordinate-collecting form: per iteration, push the
current offset translated by the center if it lies in the radius box. -/
def spiralCoordsAux (center : ℤ × ℤ) (radius : ℤ) :
    ℕ → SpiralState → List (ℤ × ℤ)
  | 0, _ => []
  | n + 1, s =>
      let rest := spiralCoordsAux center radius n (spiralIter s)
      if |s.x| ≤ radius ∧ |s.z| ≤ radius then
        (center.1 + s.x, center.2 + s.z) :: rest
      else rest

/-- x = 0, z = 0, dx = 0, dz = -1. -/
def spiralStart : SpiralState := ⟨0, 0, 0, -1⟩

/-- The coords list generateChunksSpiral builds: (2·radius+1)² iterations of
the walker from the origin. -/
def spiralCoords (center : ℤ × ℤ) (radius : ℕ) : List (ℤ × ℤ) :=
  spiralCoordsAux center radius ((2 * radius + 1) ^ 2) spiralStart

/-- The chunk-generation for-loop of generateChunksSpiral: one awaited
generateChunk call per coordinate, results pushed in order; a rejection
(thrown error) aborts the loop and rejects the whole batch. -/
def runChunks {ε β : Type} (gen : ℤ × ℤ → Except ε β) :
    List (ℤ × ℤ) → Except ε (List β)
  | [] => Except.ok []
  | c :: cs =>
      match gen c with
      | Except.error e => Except.error e
      | Except.ok chunk =>
          match runChunks gen cs with
          | Except.error e => Except.error e
          | Except.ok rest => Except.ok (chunk :: rest)

/-- WorldGenerator.generateChunksSpiral over an abstract per-chunk
generator. -/
def generateChunksSpiral {ε β : Type} (gen : ℤ × ℤ → Except ε β)
    (centerChunk : ℤ × ℤ) (radius : ℕ) : Except ε (List β) :=
  runChunks gen (spiralCoords centerChunk radius)

/-! ## WorldGenerator.ts : generateChunk assembly -/

/-- Modelled from the spec: WorldGenerator imports an `alea` pseudo-random
stream from './stub-alea', a file not present in the repository sources.
Per §4.2 it holds one 32-bit word of state, advances with pure 32-bit
multiplication/xor-shift arithmetic, and next() yields a float in [0,1).
We realize it as a 32-bit xorshift whose state after n+1 steps backs the
n-th draw. -/
def aleaNextState (s : ℕ) : ℕ :=
  let s1 := (s ^^^ (s <<< 13)) % 2 ^ 32
  let s2 := s1 ^^^ (s1 >>> 17)
  (s2 ^^^ (s2 <<< 5)) % 2 ^ 32

/-- Modelled from the spec: the alea state after n advances from a 32-bit
integer seed (a zero state is nudged to keep the xorshift moving). -/
def aleaState (seed : ℤ) : ℕ → ℕ
  | 0 => if (seed % 2 ^ 32).toNat = 0 then 1 else (seed % 2 ^ 32).toNat
  | n + 1 => aleaNextState (aleaState seed n)

/-- Modelled from the spec: the n-th alea draw, in [0,1). -/
def aleaDraw (seed : ℤ) (n : ℕ) : ℚ := (aleaState seed (n + 1) : ℚ) / 2 ^ 32

/-- The ambient JS Math environment of one generateChunk call: the global
Math.random stream and the abstracted Math functions. -/
structure MathEnv where
  randomStream : ℕ → ℚ
  sqrt2 : ℚ
  piV : ℚ
  cosF : ℚ → ℚ
  sinF : ℚ → ℚ
  sqrtF : ℚ → ℚ

/-- The ChunkData record assembled by generateChunk.  minHeight/maxHeight
and the wall-clock generationTime are diagnostics not modeled here; the
metadata seed field is. -/
structure ChunkData where
  coord : ℤ × ℤ
  heightmap : ℕ → ℚ
  biomemap : ℕ → ℕ
  temperature : ℕ → ℚ
  moisture : ℕ → ℚ
  objects : List ObjectInstance
  metadataSeed : ℤ

/-- WorldGenerator.generateChunk.  Sub-seeds are derived deterministically,
but the two noise generators are the Math.random stub, so the heightmap
consumes draws 0 .. (chunkSize+2)²·octaves - 1 of the ambient stream and the
biome pass consumes two interleaved draws per cell after that.  The object
placer consumes the alea stream seeded from the derived object seed.  `fuel`
bounds the sampling while-loop. -/
def generateChunk (w : WorldGenState) (chunkCoord : ℤ × ℤ) (m : MathEnv)
    (fuel : ℕ) : ChunkData :=
  let cfg := w.config
  let cs := cfg.chunkSize
  let chunkSeed := chunkSeedOf w chunkCoord
  let objectSeed := generateHash [HashInput.num chunkSeed, HashInput.str ("objects")]
  let padded := heightmapGenerate cfg.heightmapParams m.randomStream chunkCoord cs
  let heightmap := extractCenterArea padded cs 1
  let biomeOff := (cs + 2) ^ 2 * cfg.heightmapParams.octaves
  let tempSample := fun i =>
    jsNoise2D m.randomStream (biomeOff + 2 * i)
      (((chunkCoord.1 * cs + i % cs : ℤ) : ℚ) * cfg.temperatureParams.frequency)
      (((chunkCoord.2 * cs + i / cs : ℤ) : ℚ) * cfg.temperatureParams.frequency)
  let moistSample := fun i =>
    jsNoise2D m.randomStream (biomeOff + 2 * i + 1)
      (((chunkCoord.1 * cs + i % cs : ℤ) : ℚ) * cfg.moistureParams.frequency)
      (((chunkCoord.2 * cs + i / cs : ℤ) : ℚ) * cfg.moistureParams.frequency)
  let temperature := biomeTemperature cfg.temperatureParams tempSample heightmap
  let moisture := biomeMoisture moistSample
  let biomemap := biomeMap cfg.biomeLookupTable cfg.temperatureParams
    tempSample moistSample heightmap
  let pdEnv : PDEnv :=
    { chunkSize := (cs : ℚ), minDistance := 5, maxAttempts := 30
      stream := aleaDraw objectSeed, sqrt2 := m.sqrt2, piV := m.piV
      cosF := m.cosF, sinF := m.sinF, sqrtF := m.sqrtF }
  let sampled := pdRun pdEnv fuel (pdInit pdEnv)
  let objects := placeObjectsFrom cfg chunkCoord biomemap heightmap
    (aleaDraw objectSeed) m.piV sampled.points sampled.k
  { coord := chunkCoord
    heightmap := heightmap
    biomemap := biomemap
    temperature := temperature
    moisture := moisture
    objects := objects
    metadataSeed := chunkSeed }

/-! ## Concrete fixtures used by counterexamples and witnesses -/

/-- The default heightmap parameters of WorldGenerator.initializeConfig. -/
def defaultHeightmapParams : HeightmapParams :=
  { frequency := 0.01, octaves := 4, persistence := 0.5, lacunarity := 2
    amplitude := 1 }

/-- The default configuration assembled by initializeConfig, with seed 42. -/
def defaultConfig42 : GeneratorConfig :=
  { seed := HashInput.num 42
    chunkSize := 64
    worldScale := 1
    heightmapParams := defaultHeightmapParams
    temperatureParams := { baseTemperature := 0.5, frequency := 0.005
                           altitudeLapseRate := 0.1 }
    moistureParams := { frequency := 0.008 }
    biomes := getDefaultBiomes
    biomeLookupTable := getDefaultBiomeLookupTable }

/-- A configuration whose heightmap octave count is zero. -/
def cfgOctavesZero : GeneratorConfig :=
  { defaultConfig42 with
      heightmapParams := { defaultHeightmapParams with octaves := 0 } }

/-- Heightmap parameters with a negative persistence (octaves ≥ 1). -/
def badPersistenceParams : HeightmapParams :=
  { frequency := 0.01, octaves := 2, persistence := -(1/2), lacunarity := 2
    amplitude := 1 }

/-- A Math.random history: first draw 19/20, later draws 0. -/
def streamHighFirst : ℕ → ℚ := fun n => if n = 0 then 19 / 20 else 0

/-- A per-chunk generator that fails at the origin chunk and succeeds
everywhere else. -/
def failingGen : ℤ × ℤ → Except String ℕ :=
  fun c => if c = (0, 0) then Except.error ("generation failed") else Except.ok 7

/-- A configuration whose single biome has object density 0. -/
def cfgDensityZero : GeneratorConfig :=
  { defaultConfig42 with
      chunkSize := 1
      biomes := [⟨1, some 0⟩]
      biomeLookupTable := [[1, 1, 1], [1, 1, 1], [1, 1, 1]] }

/-- A configuration satisfying the lookup-table invariant with a biome id
that does not fit in a Uint8Array cell. -/
def cfgBigId : GeneratorConfig :=
  { defaultConfig42 with
      biomes := [⟨256, some 0.5⟩]
      biomeLookupTable := [[256, 256, 256], [256, 256, 256], [256, 256, 256]] }

/-- A straight run of n walker positions from (x, z) stepping by (dx, dz). -/
def sideWalk (x z dx dz : ℤ) (n : ℕ) : List (ℤ × ℤ) :=
  (List.range n).map (fun j : ℕ => (x + (j : ℤ) * dx, z + (j : ℤ) * dz))

/-- The positions of ring m (Chebyshev circle of radius m) in the order the
spiral walker visits them: up the right side, leftward along the top, down
the left side, rightward along the bottom overshooting one cell into the
next ring's entry column. -/
def ringList (m : ℕ) : List (ℤ × ℤ) :=
  sideWalk m (1 - m) 0 1 (2 * m - 1) ++
  sideWalk m m (-1) 0 (2 * m) ++
  sideWalk (-(m : ℤ)) m 0 (-1) (2 * m) ++
  sideWalk (-(m : ℤ)) (-(m : ℤ)) 1 0 (2 * m + 1)

/-- The closed Chebyshev ball of radius r in spiral visiting order. -/
def ballList : ℕ → List (ℤ × ℤ)
  | 0 => [(0, 0)]
  | r + 1 => ballList r ++ ringList (r + 1)

/-- A small configuration (chunkSize 1, one octave) for evaluating one
generateChunk heightmap cell. -/
def cfgTiny : GeneratorConfig :=
  { defaultConfig42 with
      chunkSize := 1
      heightmapParams := { defaultHeightmapParams with octaves := 1 } }

/-- The generator constructed from cfgTiny (seed 42). -/
def worldGenTiny : WorldGenState := mkWorldGenerator cfgTiny

/-- One Math environment: a Math.random history of all-0 draws. -/
def mathEnvZero : MathEnv :=
  { randomStream := fun _ => 0, sqrt2 := 3 / 2, piV := 3
    cosF := fun _ => 1, sinF := fun _ => 0, sqrtF := fun _ => 0 }

/-- Another Math environment: a Math.random history of all-1/2 draws. -/
def mathEnvHalf : MathEnv :=
  { mathEnvZero with randomStream := fun _ => 1 / 2 }

/-- A concrete sampling environment: chunkSize 10, the source's minDistance
5 and 30 attempts, an all-zero prng history, 3/2 for Math.sqrt(2), and a
Math.sqrt that respects the square comparison at threshold 5. -/
def pdEnvDemo : PDEnv :=
  { chunkSize := 10, minDistance := 5, maxAttempts := 30
    stream := fun _ => 0, sqrt2 := 3 / 2, piV := 3
    cosF := fun _ => 1, sinF := fun _ => 0
    sqrtF := fun q => if q < 25 then 0 else 5 }

/-! ## Invariants of the sampling loop -/

/-- A point lies inside the chunk footprint (the acceptance bounds of the
sampler). -/
def inChunk (e : PDEnv) (p : Pt) : Prop :=
  0 ≤ p.1 ∧ p.1 < e.chunkSize ∧ 0 ≤ p.2 ∧ p.2 < e.chunkSize

/-- Two points are at least minDistance apart (stated on squares, the
sqrt-free form of the comparison the source makes). -/
def farApart (e : PDEnv) (p q : Pt) : Prop := e.minDistance ^ 2 ≤ distSq p q

/-- The environment facts the invariant proof rests on: positive sizes, the
value standing for Math.sqrt(2) has square at least 2 and is at most 2
(true of the exact root and of its double rounding), prng draws in [0,1),
and the value standing for Math.sqrt maps squared distances below
minDistance² strictly below minDistance (true of the exact root; double
rounding can exceed it by at most half an ulp, the tolerance the claim
allows). -/
structure PDEnvOK (e : PDEnv) : Prop where
  cs_pos : 0 < e.chunkSize
  md_pos : 0 < e.minDistance
  s_pos : 0 < e.sqrt2
  s_sq : 2 ≤ e.sqrt2 ^ 2
  s_le : e.sqrt2 ≤ 2
  stream01 : ∀ n, 0 ≤ e.stream n ∧ e.stream n < 1
  sqrt_lt : ∀ q : ℚ, 0 ≤ q → q < e.minDistance ^ 2 → e.sqrtF q < e.minDistance

/-- The loop invariant: accepted points are pairwise far apart and inside
the chunk, and the grid stores exactly the index of each accepted point at
that point's cell. -/
structure PDInv (e : PDEnv) (st : PDState) : Prop where
  pair : st.points.Pairwise (farApart e)
  inb : ∀ p ∈ st.points, inChunk e p
  faith : ∀ (i : ℕ) (h : i < st.points.length),
    st.grid (e.cellOf (st.points.get ⟨i, h⟩)) = (i : ℤ)

/-! ## Helper lemmas -/

/-- The batch loop propagates the failure of any member coordinate: the
result is an error value, not a chunk list. -/
lemma runChunks_error_of_mem {ε β : Type} (gen : ℤ × ℤ → Except ε β)
    (l : List (ℤ × ℤ)) (c : ℤ × ℤ) (e : ε) (hc : c ∈ l)
    (hg : gen c = Except.error e) :
    ∃ e2, runChunks gen l = Except.error e2 := by
  induction l with
  | nil => cases hc
  | cons hd tl ih =>
      rcases List.mem_cons.mp hc with hhd | htl
      · subst hhd
        exact ⟨e, by simp [runChunks, hg]⟩
      · cases hgen : gen hd with
        | error e3 => exact ⟨e3, by simp [runChunks, hgen]⟩
        | ok chunk =>
            obtain ⟨e2, h2⟩ := ih htl
            exact ⟨e2, by simp [runChunks, hgen, h2]⟩

/-- The batch loop on an always-succeeding generator returns all chunks in
coordinate order. -/
lemma runChunks_ok {ε β : Type} (f : ℤ × ℤ → β) (l : List (ℤ × ℤ)) :
    runChunks (fun c => (Except.ok (f c) : Except ε β)) l = Except.ok (l.map f) := by
  induction l with
  | nil => rfl
  | cons hd tl ih => simp [runChunks, ih]

/-- Through the FBM loop, the accumulated sum stays within plus/minus the
accumulated normalizer, as long as the per-octave amplitudes stay
nonnegative (amplitude ≥ 0 and persistence ≥ 0) and every noise sample lies
in [-1, 1). -/
lemma fbmGo_sum_within_norm (stream : ℕ → ℚ) (pers lac wx wz : ℚ)
    (hstream : ∀ n, 0 ≤ stream n ∧ stream n < 1) (hpers : 0 ≤ pers) :
    ∀ (n base : ℕ) (h m amp freq : ℚ), -m ≤ h → h ≤ m → 0 ≤ amp →
      -(fbmGo stream pers lac wx wz base n h m amp freq).2
          ≤ (fbmGo stream pers lac wx wz base n h m amp freq).1 ∧
      (fbmGo stream pers lac wx wz base n h m amp freq).1
          ≤ (fbmGo stream pers lac wx wz base n h m amp freq).2 := by
  intro n
  induction n with
  | zero => intro base h m amp freq h1 h2 _; exact ⟨h1, h2⟩
  | succ n ih =>
      intro base h m amp freq h1 h2 hamp
      have hs0 := (hstream base).1
      have hs1 := (hstream base).2
      have hvu : jsNoise2D stream base (wx * freq) (wz * freq) * amp ≤ amp := by
        unfold jsNoise2D; nlinarith
      have hvl : -amp ≤ jsNoise2D stream base (wx * freq) (wz * freq) * amp := by
        unfold jsNoise2D; nlinarith
      show -(fbmGo stream pers lac wx wz (base + 1) n _ _ _ _).2 ≤ _ ∧ _
      exact ih (base + 1) _ _ _ _ (by linarith) (by linarith) (by positivity)

/-- The accumulated normalizer never decreases over the FBM loop. -/
lemma fbmGo_norm_mono (stream : ℕ → ℚ) (pers lac wx wz : ℚ) (hpers : 0 ≤ pers) :
    ∀ (n base : ℕ) (h m amp freq : ℚ), 0 ≤ amp →
      m ≤ (fbmGo stream pers lac wx wz base n h m amp freq).2 := by
  intro n
  induction n with
  | zero => intro base h m amp freq _; exact le_refl m
  | succ n ih =>
      intro base h m amp freq hamp
      calc m ≤ m + amp := by linarith
        _ ≤ _ := ih (base + 1) _ _ _ _ (by positivity)

/-- With at least one octave, the final normalizer is at least the starting
amplitude. -/
lemma fbmGo_norm_ge_amplitude (stream : ℕ → ℚ) (pers lac wx wz : ℚ)
    (hpers : 0 ≤ pers) (n base : ℕ) (hn : 1 ≤ n) (amp freq : ℚ) (hamp : 0 ≤ amp) :
    amp ≤ (fbmGo stream pers lac wx wz base n 0 0 amp freq).2 := by
  cases n with
  | zero => omega
  | succ n =>
      show amp ≤ (fbmGo stream pers lac wx wz (base + 1) n _ (0 + amp) _ _).2
      calc amp = 0 + amp := by ring
        _ ≤ _ := fbmGo_norm_mono stream pers lac wx wz hpers n (base + 1) _ _ _ _
            (by positivity)

/-- The quotient of the FBM accumulator pair lies in [-1, 1] when the loop
runs at least one octave from a positive amplitude with nonnegative
persistence. -/
lemma fbmGo_div_bounds (stream : ℕ → ℚ) (pers lac : ℚ)
    (hstream : ∀ n, 0 ≤ stream n ∧ stream n < 1) (hpers : 0 ≤ pers)
    (oct : ℕ) (hoct : 1 ≤ oct) (amp freq : ℚ) (hamp : 0 < amp)
    (wx wz : ℚ) (base : ℕ) :
    -1 ≤ (fbmGo stream pers lac wx wz base oct 0 0 amp freq).1 /
          (fbmGo stream pers lac wx wz base oct 0 0 amp freq).2 ∧
    (fbmGo stream pers lac wx wz base oct 0 0 amp freq).1 /
          (fbmGo stream pers lac wx wz base oct 0 0 amp freq).2 ≤ 1 := by
  have hb := fbmGo_sum_within_norm stream pers lac wx wz hstream hpers
    oct base 0 0 amp freq (by linarith) (by linarith) (by linarith)
  have hn := fbmGo_norm_ge_amplitude stream pers lac wx wz hpers oct base hoct
    amp freq (by linarith)
  have hpos : 0 < (fbmGo stream pers lac wx wz base oct 0 0 amp freq).2 :=
    lt_of_lt_of_le hamp hn
  constructor
  · exact (le_div_iff₀ hpos).mpr (by linarith [hb.1])
  · exact (div_le_one hpos).mpr hb.2

/-! ## Claim C2 -/

/-- C2 counterexample: with octaves = 2 and persistence = -1/2 (octaves ≥ 1,
as the claim allows), the first padded heightmap cell evaluates to 14/5,
outside [-1, 1], on a genuine Math.random history (draws 19/20 then 0).
The negative persistence makes the normalizer smaller in absolute value
than the achievable sum. -/
theorem heightmap_bound_fails_for_negative_persistence :
    ¬ (heightmapGenerate badPersistenceParams streamHighFirst (0, 0) 1 0 ≤ 1) := by
  norm_num [heightmapGenerate, fbmGo, jsNoise2D, streamHighFirst,
    badPersistenceParams]

/-- C2 (amended): every value of the padded heightmap and of the extracted
center area lies in [-1, 1] — for configurations with octaves ≥ 1 whose
amplitude is positive and whose persistence is nonnegative (so every
per-octave amplitude is nonnegative and the normalizer is positive; the
original claim without these two conditions is refuted separately), with
Math.random draws in [0,1). -/
theorem heightmap_values_in_unit_interval (p : HeightmapParams)
    (stream : ℕ → ℚ) (coord : ℤ × ℤ) (chunkSize : ℕ) (i : ℕ)
    (hoct : 1 ≤ p.octaves) (hamp : 0 < p.amplitude) (hpers : 0 ≤ p.persistence)
    (hstream : ∀ n, 0 ≤ stream n ∧ stream n < 1) :
    (-1 ≤ heightmapGenerate p stream coord chunkSize i ∧
      heightmapGenerate p stream coord chunkSize i ≤ 1) ∧
    (-1 ≤ extractCenterArea (heightmapGenerate p stream coord chunkSize) chunkSize 1 i ∧
      extractCenterArea (heightmapGenerate p stream coord chunkSize) chunkSize 1 i ≤ 1) := by
  have key : ∀ j : ℕ, -1 ≤ heightmapGenerate p stream coord chunkSize j ∧
      heightmapGenerate p stream coord chunkSize j ≤ 1 := by
    intro j
    simp only [heightmapGenerate]
    exact fbmGo_div_bounds stream p.persistence p.lacunarity hstream hpers
      p.octaves hoct p.amplitude p.frequency hamp _ _ _
  refine ⟨key i, ?_⟩
  simp only [extractCenterArea]
  exact key _

/-- C2 witness: the amended bound at the default parameters (octaves 4,
persistence 1/2, amplitude 1), seed-independent Math.random history 0. -/
theorem heightmap_values_in_unit_interval_witness :
    (1 ≤ defaultHeightmapParams.octaves ∧ 0 < defaultHeightmapParams.amplitude ∧
      0 ≤ defaultHeightmapParams.persistence) ∧
    ((-1 ≤ heightmapGenerate defaultHeightmapParams (fun _ => 0) (0, 0) 64 0 ∧
      heightmapGenerate defaultHeightmapParams (fun _ => 0) (0, 0) 64 0 ≤ 1) ∧
    (-1 ≤ extractCenterArea
        (heightmapGenerate defaultHeightmapParams (fun _ => 0) (0, 0) 64) 64 1 0 ∧
      extractCenterArea
        (heightmapGenerate defaultHeightmapParams (fun _ => 0) (0, 0) 64) 64 1 0 ≤ 1)) :=
  ⟨⟨by norm_num [defaultHeightmapParams], by norm_num [defaultHeightmapParams],
      by norm_num [defaultHeightmapParams]⟩,
    heightmap_values_in_unit_interval defaultHeightmapParams (fun _ => 0) (0, 0) 64 0
      (by norm_num [defaultHeightmapParams]) (by norm_num [defaultHeightmapParams])
      (by norm_num [defaultHeightmapParams]) (fun n => by norm_num)⟩

/-! ## Claim C5 -/

/-- C5 counterexample: a configuration with octaves = 0 is not rejected —
initializeConfig returns it unchanged and the constructor stores it, and the
FBM loop returns accumulated sum 0 and normalizer 0, so generate performs
the 0/0 division (NaN heights in JS) instead of failing fast. -/
theorem octaves_zero_not_rejected :
    initializeConfig cfgOctavesZero = cfgOctavesZero ∧
    (mkWorldGenerator cfgOctavesZero).config.heightmapParams.octaves = 0 ∧
    (fbmGo (fun _ => 0) (1/2) 2 0 0 0 0 0 0 1 (1/100)) = (0, 0) := by
  exact ⟨rfl, rfl, rfl⟩

/-- C5 (amended): no configuration validation exists.  With octaves = 0 the
config passes initializeConfig and the constructor unchanged, every FBM cell
loop returns (0, 0), and each heightmap cell is computed as the quotient 0/0
of the accumulated pair (IEEE NaN in the JS source; rational division by
zero in this embedding). -/
theorem octaves_zero_silently_divides (cfg : GeneratorConfig)
    (hoct : cfg.heightmapParams.octaves = 0) (stream : ℕ → ℚ) (coord : ℤ × ℤ)
    (i : ℕ) (base : ℕ) (wx wz : ℚ) :
    initializeConfig cfg = cfg ∧
    (mkWorldGenerator cfg).config = cfg ∧
    fbmGo stream cfg.heightmapParams.persistence cfg.heightmapParams.lacunarity
        wx wz base cfg.heightmapParams.octaves 0 0
        cfg.heightmapParams.amplitude cfg.heightmapParams.frequency = (0, 0) ∧
    heightmapGenerate cfg.heightmapParams stream coord cfg.chunkSize i = 0 / 0 := by
  refine ⟨rfl, rfl, by rw [hoct]; rfl, ?_⟩
  simp only [heightmapGenerate, hoct]
  rfl

/-- C5 witness: the amended statement at the concrete octaves-0 config. -/
theorem octaves_zero_silently_divides_witness :
    cfgOctavesZero.heightmapParams.octaves = 0 ∧
    (initializeConfig cfgOctavesZero = cfgOctavesZero ∧
      (mkWorldGenerator cfgOctavesZero).config = cfgOctavesZero ∧
      fbmGo (fun _ => 0) cfgOctavesZero.heightmapParams.persistence
          cfgOctavesZero.heightmapParams.lacunarity 0 0 0
          cfgOctavesZero.heightmapParams.octaves 0 0
          cfgOctavesZero.heightmapParams.amplitude
          cfgOctavesZero.heightmapParams.frequency = (0, 0) ∧
      heightmapGenerate cfgOctavesZero.heightmapParams (fun _ => 0) (0, 0)
          cfgOctavesZero.chunkSize 0 = 0 / 0) :=
  ⟨rfl, octaves_zero_silently_divides cfgOctavesZero rfl (fun _ => 0) (0, 0) 0 0 0 0⟩

/-! ## Claim C4 -/

/-- C4 counterexample: with a generator failing exactly at chunk (0,0) and
succeeding at the eight other chunks of the radius-1 spiral, the batch
returns a bare error — the successfully generatable chunks are neither
generated after the failure nor returned. -/
theorem spiral_discards_batch_on_failure :
    generateChunksSpiral failingGen (0, 0) 1 = Except.error ("generation failed") ∧
    failingGen (1, 0) = Except.ok 7 := by
  exact ⟨rfl, rfl⟩

/-- C4 (amended): failures are not local to a chunk — if the per-chunk
generator fails on any coordinate of the spiral, generateChunksSpiral
rejects with an error and returns no chunk list at all (the source loop
awaits each generateChunk with no try/catch). -/
theorem spiral_failure_aborts_batch {ε β : Type} (gen : ℤ × ℤ → Except ε β)
    (center : ℤ × ℤ) (radius : ℕ) (c : ℤ × ℤ) (e : ε)
    (hc : c ∈ spiralCoords center radius) (hg : gen c = Except.error e) :
    ∃ e2, generateChunksSpiral gen center radius = Except.error e2 :=
  runChunks_error_of_mem gen (spiralCoords center radius) c e hc hg

/-- C4 witness: the abort at the failing origin of the radius-1 spiral. -/
theorem spiral_failure_aborts_batch_witness :
    ((0, 0) ∈ spiralCoords (0, 0) 1 ∧
      failingGen (0, 0) = Except.error ("generation failed")) ∧
    ∃ e2, generateChunksSpiral failingGen (0, 0) 1 = Except.error e2 :=
  ⟨⟨by decide, rfl⟩,
    spiral_failure_aborts_batch failingGen (0, 0) 1 (0, 0) ("generation failed")
      (by decide) rfl⟩

/-! ## Claim C7 -/

/-- C7 counterexample: a biome configured with object density 0 still
spawns objects — the JS `|| 0.5` fallback treats the falsy 0 as absent, so
a draw of 2/5 (not below the configured 0) emits an object. -/
theorem density_zero_still_spawns :
    ((placeStep cfgDensityZero (0, 0) (fun _ => 1) (fun _ => 0) (fun _ => 2 / 5) 3
        (0, []) ((0 : ℚ), (0 : ℚ))).2).length = 1 ∧
    ¬ ((2 / 5 : ℚ) < 0) ∧
    cfgDensityZero.biomes = [⟨1, some 0⟩] := by
  refine ⟨?_, by norm_num, rfl⟩
  norm_num [placeStep, cfgDensityZero, defaultConfig42, biomeObjects,
    effectiveDensity, List.find?]

/-- C7 (amended): a sampled point whose cell index is in range and whose
biome has a nonempty archetype list emits exactly one object if and only if
the single stream value drawn for it is strictly below the effective
density — the biome's configured objectDensity unless that value is 0 or
absent or the biome id is not found in config.biomes, in which case the JS
`|| 0.5` fallback substitutes 1/2 (so configured density 0 does not disable
spawning, refuting the claim as stated). -/
theorem object_emitted_iff_draw_below_density (cfg : GeneratorConfig)
    (coord : ℤ × ℤ) (biomemap : ℕ → ℕ) (heightmap : ℕ → ℚ) (stream : ℕ → ℚ)
    (piV : ℚ) (k : ℕ) (objs : List ObjectInstance) (point : Pt)
    (hin : 0 ≤ ⌊point.2⌋ * cfg.chunkSize + ⌊point.1⌋ ∧
      ⌊point.2⌋ * cfg.chunkSize + ⌊point.1⌋ < (cfg.chunkSize ^ 2 : ℤ))
    (htypes : biomeObjects
        (biomemap (⌊point.2⌋ * cfg.chunkSize + ⌊point.1⌋).toNat) ≠ []) :
    (placeStep cfg coord biomemap heightmap stream piV (k, objs) point).2.length
      = objs.length +
        (if stream k < effectiveDensity cfg.biomes
            ((biomemap (⌊point.2⌋ * cfg.chunkSize + ⌊point.1⌋).toNat : ℕ) : ℤ)
          then 1 else 0) := by
  simp only [placeStep]
  rw [if_pos hin, if_neg htypes]
  by_cases hd : stream k < effectiveDensity cfg.biomes
      ((biomemap (⌊point.2⌋ * cfg.chunkSize + ⌊point.1⌋).toNat : ℕ) : ℤ)
  · rw [if_pos hd, if_pos hd]
    simp
  · rw [if_neg hd, if_neg hd]
    simp

/-- C7 witness: the emission rule at the default config, biome id 1
(grassland, density 3/10), draw 0. -/
theorem object_emitted_iff_draw_below_density_witness :
    ((0 ≤ ⌊(0 : ℚ)⌋ * defaultConfig42.chunkSize + ⌊(0 : ℚ)⌋ ∧
      ⌊(0 : ℚ)⌋ * defaultConfig42.chunkSize + ⌊(0 : ℚ)⌋
        < (defaultConfig42.chunkSize ^ 2 : ℤ)) ∧
      biomeObjects ((fun _ => 1) (⌊(0 : ℚ)⌋ * defaultConfig42.chunkSize +
        ⌊(0 : ℚ)⌋).toNat) ≠ []) ∧
    (placeStep defaultConfig42 (0, 0) (fun _ => 1) (fun _ => 0) (fun _ => 0) 3
        (0, []) ((0 : ℚ), (0 : ℚ))).2.length
      = ([] : List ObjectInstance).length +
        (if (fun _ => (0 : ℚ)) 0 < effectiveDensity defaultConfig42.biomes
            ((((fun _ => 1) ((⌊((0 : ℚ), (0 : ℚ)).2⌋ * defaultConfig42.chunkSize +
              ⌊((0 : ℚ), (0 : ℚ)).1⌋).toNat) : ℕ) : ℤ))
          then 1 else 0) :=
  ⟨⟨by norm_num [defaultConfig42], by norm_num [biomeObjects]⟩,
    object_emitted_iff_draw_below_density defaultConfig42 (0, 0) (fun _ => 1)
      (fun _ => 0) (fun _ => 0) 3 0 [] ((0 : ℚ), (0 : ℚ))
      (by norm_num [defaultConfig42]) (by norm_num [biomeObjects])⟩

/-! ## Claim C6 -/

/-- C6 counterexample: a configuration whose lookup table entries are all
the valid biome id 256 (the id of the single configured biome) satisfies
the claim's invariant, yet the Uint8Array biomemap stores 256 mod 256 = 0 —
not a valid id of config.biomes.  The claim holds only for ids below 256. -/
theorem valid_id_256_wraps_to_invalid :
    (∀ mi ti : ℕ, mi ≤ 2 → ti ≤ 2 →
      tableEntry cfgBigId.biomeLookupTable mi ti
        ∈ cfgBigId.biomes.map (fun b => b.id)) ∧
    biomeMap cfgBigId.biomeLookupTable cfgBigId.temperatureParams
        (fun _ => 0) (fun _ => 0) (fun _ => 0) 0 = 0 ∧
    ¬ ((0 : ℤ) ∈ cfgBigId.biomes.map (fun b => b.id)) := by
  refine ⟨?_, ?_, by norm_num [cfgBigId, defaultConfig42]⟩
  · intro mi ti hmi hti
    interval_cases mi <;> interval_cases ti <;> decide
  norm_num [biomeMap, getBiomeFromWhittaker, biomeTemperature, biomeMoisture,
    tableEntry, jsUint8, cfgBigId, defaultConfig42]

/-- C6 (amended): per cell, the temperature is the remapped noise sample
minus height times the lapse rate clamped to [0,1]; the stored biome id is
the table entry at the clamped thirds of moisture and temperature; and —
provided every table entry reachable by the clamped indices is a valid
biome id that moreover fits a Uint8Array cell (0 ≤ id < 256, the condition
the counterexample shows is needed) — every biomemap entry is a valid id of
config.biomes. -/
theorem biome_cell_is_valid_table_lookup (table : List (List ℤ))
    (tp : TemperatureParams) (tempSample moistSample hm : ℕ → ℚ)
    (biomes : List BiomeConfig) (i : ℕ)
    (htable : ∀ mi ti : ℕ, mi ≤ 2 → ti ≤ 2 →
      0 ≤ tableEntry table mi ti ∧ tableEntry table mi ti < 256 ∧
        tableEntry table mi ti ∈ biomes.map (fun b => b.id)) :
    biomeTemperature tp tempSample hm i
        = max 0 (min 1 ((tempSample i + 1) * 0.5 - hm i * tp.altitudeLapseRate)) ∧
    (biomeMap table tp tempSample moistSample hm i : ℤ)
        = tableEntry table (min 2 (max 0 ⌊biomeMoisture moistSample i * 3⌋)).toNat
            (min 2 (max 0 ⌊biomeTemperature tp tempSample hm i * 3⌋)).toNat ∧
    ((biomeMap table tp tempSample moistSample hm i : ℤ)
        ∈ biomes.map (fun b => b.id)) := by
  set mi := (min 2 (max 0 ⌊biomeMoisture moistSample i * 3⌋)).toNat with hmi
  set ti := (min 2 (max 0 ⌊biomeTemperature tp tempSample hm i * 3⌋)).toNat with hti
  have hmi2 : mi ≤ 2 := by
    have : (min 2 (max 0 ⌊biomeMoisture moistSample i * 3⌋) : ℤ) ≤ 2 :=
      min_le_left _ _
    omega
  have hti2 : ti ≤ 2 := by
    have : (min 2 (max 0 ⌊biomeTemperature tp tempSample hm i * 3⌋) : ℤ) ≤ 2 :=
      min_le_left _ _
    omega
  have he := htable mi ti hmi2 hti2
  have hval : biomeMap table tp tempSample moistSample hm i
      = jsUint8 (tableEntry table mi ti) := rfl
  have hentry : (jsUint8 (tableEntry table mi ti) : ℤ) = tableEntry table mi ti := by
    unfold jsUint8
    rw [Int.emod_eq_of_lt he.1 he.2.1]
    exact Int.toNat_of_nonneg he.1
  refine ⟨rfl, ?_, ?_⟩
  · rw [hval, hentry]
  · rw [hval, hentry]
    exact he.2.2

/-- C6 witness: the classification at the default Whittaker table and
default biome list (ids 0..8), flat samples. -/
theorem biome_cell_is_valid_table_lookup_witness :
    (∀ mi ti : ℕ, mi ≤ 2 → ti ≤ 2 →
      0 ≤ tableEntry getDefaultBiomeLookupTable mi ti ∧
        tableEntry getDefaultBiomeLookupTable mi ti < 256 ∧
        tableEntry getDefaultBiomeLookupTable mi ti
          ∈ getDefaultBiomes.map (fun b => b.id)) ∧
    ((biomeMap getDefaultBiomeLookupTable
        { baseTemperature := 0.5, frequency := 0.005, altitudeLapseRate := 0.1 }
        (fun _ => 0) (fun _ => 0) (fun _ => 0) 0 : ℤ)
      ∈ getDefaultBiomes.map (fun b => b.id)) :=
  ⟨by intro mi ti hmi hti; interval_cases mi <;> interval_cases ti <;> decide,
    (biome_cell_is_valid_table_lookup getDefaultBiomeLookupTable
      { baseTemperature := 0.5, frequency := 0.005, altitudeLapseRate := 0.1 }
      (fun _ => 0) (fun _ => 0) (fun _ => 0) getDefaultBiomes 0
      (by intro mi ti hmi hti; interval_cases mi <;> interval_cases ti <;> decide)).2.2⟩

/-! ## Claim C9 -/

/-- C9: updateConfig replaces the stored config but never the private
globalSeed fixed at construction — after an updateConfig that sets a new
config.seed, generateChunk still derives the chunk seed (and the
metadata.seed it stamps) from the construction-time seed. -/
theorem updateConfig_keeps_construction_seed (cfg : GeneratorConfig)
    (p : PartialConfig) (coord : ℤ × ℤ) (m : MathEnv) (fuel : ℕ) :
    (updateConfig (mkWorldGenerator cfg) p).globalSeed
        = (mkWorldGenerator cfg).globalSeed ∧
    chunkSeedOf (updateConfig (mkWorldGenerator cfg) p) coord
        = chunkSeedOf (mkWorldGenerator cfg) coord ∧
    (generateChunk (updateConfig (mkWorldGenerator cfg) p) coord m fuel).metadataSeed
        = (generateChunk (mkWorldGenerator cfg) coord m fuel).metadataSeed :=
  ⟨rfl, rfl, rfl⟩

/-! ## Claim C1 -/

/-- C1 evaluation: the generation of the same chunk (0,0) by the same
generator (seed 42) yields heightmap cell values -1 and 0 under two
different process-global Math.random histories — the noise stub ignores the
seeded prng and reads Math.random, so repeated invocations do not produce
identical heightmaps. -/
theorem generateChunk_reads_ambient_randomness :
    (generateChunk worldGenTiny (0, 0) mathEnvZero 1).heightmap 0
      ≠ (generateChunk worldGenTiny (0, 0) mathEnvHalf 1).heightmap 0 := by
  norm_num [generateChunk, worldGenTiny, mkWorldGenerator, initializeConfig,
    cfgTiny, defaultConfig42, defaultHeightmapParams, mathEnvZero, mathEnvHalf,
    extractCenterArea, heightmapGenerate, fbmGo, jsNoise2D]

/-! ## Claim C3 : geometry of the uniform grid -/

/-- Points in the same grid cell differ by less than one cell size in each
coordinate. -/
lemma floor_div_eq_imp_abs_lt {c a b : ℚ} (hc : 0 < c) (h : ⌊a / c⌋ = ⌊b / c⌋) :
    |a - b| < c := by
  have ha1 : ((⌊a / c⌋ : ℤ) : ℚ) ≤ a / c := Int.floor_le _
  have ha2 : a / c < ((⌊a / c⌋ : ℤ) : ℚ) + 1 := Int.lt_floor_add_one _
  have hb1 : ((⌊b / c⌋ : ℤ) : ℚ) ≤ b / c := Int.floor_le _
  have hb2 : b / c < ((⌊b / c⌋ : ℤ) : ℚ) + 1 := Int.lt_floor_add_one _
  have hcast : ((⌊a / c⌋ : ℤ) : ℚ) = ((⌊b / c⌋ : ℤ) : ℚ) := by exact_mod_cast h
  have hamul : a / c * c = a := div_mul_cancel₀ a (ne_of_gt hc)
  have hbmul : b / c * c = b := div_mul_cancel₀ b (ne_of_gt hc)
  rw [abs_sub_lt_iff]
  constructor <;> nlinarith

/-- Coordinates closer than d ≤ 2·cellSize land in grid cells at most two
apart. -/
lemma abs_lt_imp_floor_diff_le {c a b d : ℚ} (hc : 0 < c) (hab : |a - b| < d)
    (hd : d ≤ 2 * c) : |⌊a / c⌋ - ⌊b / c⌋| ≤ 2 := by
  rw [abs_sub_lt_iff] at hab
  have hamul : a / c * c = a := div_mul_cancel₀ a (ne_of_gt hc)
  have hbmul : b / c * c = b := div_mul_cancel₀ b (ne_of_gt hc)
  have h1 : a / c ≤ b / c + ((2 : ℤ) : ℚ) := by push_cast; nlinarith [hab.1]
  have h2 : b / c ≤ a / c + ((2 : ℤ) : ℚ) := by push_cast; nlinarith [hab.2]
  have h3 : ⌊a / c⌋ ≤ ⌊b / c⌋ + 2 := by
    have := Int.floor_le_floor h1
    rwa [Int.floor_add_int] at this
  have h4 : ⌊b / c⌋ ≤ ⌊a / c⌋ + 2 := by
    have := Int.floor_le_floor h2
    rwa [Int.floor_add_int] at this
  exact abs_le.mpr ⟨by omega, by omega⟩

/-- The cell of an in-chunk coordinate is a legal grid index. -/
lemma floor_div_mem_grid {c cs x : ℚ} (hc : 0 < c) (h0 : 0 ≤ x) (h1 : x < cs) :
    0 ≤ ⌊x / c⌋ ∧ ⌊x / c⌋ < ⌈cs / c⌉ := by
  refine ⟨Int.floor_nonneg.mpr (div_nonneg h0 (le_of_lt hc)), ?_⟩
  have hamul : x / c * c = x := div_mul_cancel₀ x (ne_of_gt hc)
  have hbmul : cs / c * c = cs := div_mul_cancel₀ cs (ne_of_gt hc)
  have hx : x / c < cs / c := by nlinarith
  have : ((⌊x / c⌋ : ℤ) : ℚ) < ((⌈cs / c⌉ : ℤ) : ℚ) :=
    lt_of_le_of_lt (Int.floor_le _) (lt_of_lt_of_le hx (Int.le_ceil _))
  exact_mod_cast this

/-- The cell size is positive. -/
lemma cellSize_pos {e : PDEnv} (hok : PDEnvOK e) : 0 < e.cellSize :=
  div_pos hok.md_pos hok.s_pos

/-- Twice the squared cell size is at most the squared minimum distance
(from sqrt2² ≥ 2). -/
lemma two_cellSize_sq_le {e : PDEnv} (hok : PDEnvOK e) :
    2 * e.cellSize ^ 2 ≤ e.minDistance ^ 2 := by
  have hs : 0 < e.sqrt2 := hok.s_pos
  have hcell : e.cellSize * e.sqrt2 = e.minDistance := by
    unfold PDEnv.cellSize
    exact div_mul_cancel₀ e.minDistance (ne_of_gt hs)
  have hm : e.minDistance ^ 2 = e.cellSize ^ 2 * e.sqrt2 ^ 2 := by
    rw [← hcell]; ring
  nlinarith [mul_nonneg (sub_nonneg.mpr hok.s_sq) (sq_nonneg e.cellSize)]

/-- The minimum distance is at most two cell sizes (from sqrt2 ≤ 2). -/
lemma minDistance_le_two_cellSize {e : PDEnv} (hok : PDEnvOK e) :
    e.minDistance ≤ 2 * e.cellSize := by
  have hs : 0 < e.sqrt2 := hok.s_pos
  have hcell : e.cellSize * e.sqrt2 = e.minDistance := by
    unfold PDEnv.cellSize
    exact div_mul_cancel₀ e.minDistance (ne_of_gt hs)
  nlinarith [hok.s_le, cellSize_pos hok, hok.md_pos]

/-- Two points of the same grid cell are strictly closer than minDistance
(in squares). -/
lemma same_cell_distSq_lt {e : PDEnv} (hok : PDEnvOK e) {p q : Pt}
    (h : e.cellOf p = e.cellOf q) : distSq p q < e.minDistance ^ 2 := by
  have hc := cellSize_pos hok
  have h2 := congrArg Prod.snd h
  have h1 := congrArg Prod.fst h
  simp only [PDEnv.cellOf] at h1 h2
  have hx := floor_div_eq_imp_abs_lt hc h2
  have hz := floor_div_eq_imp_abs_lt hc h1
  have hx2 := abs_lt.mp hx
  have hz2 := abs_lt.mp hz
  have : distSq p q < 2 * e.cellSize ^ 2 := by
    unfold distSq
    nlinarith [hx2.1, hx2.2, hz2.1, hz2.2]
  linarith [two_cellSize_sq_le hok]

/-- If the grid scan accepts a candidate, the candidate is at least
minDistance (in squares) from every previously accepted point: any closer
point would sit in a scanned, in-bounds cell faithfully storing its index,
and the distance check would have rejected the candidate. -/
lemma isValidPoint_far {e : PDEnv} (hok : PDEnvOK e) (points : List Pt)
    (grid : ℤ × ℤ → ℤ)
    (hfaith : ∀ (i : ℕ) (h : i < points.length),
      grid (e.cellOf (points.get ⟨i, h⟩)) = (i : ℤ))
    (hinb : ∀ p ∈ points, inChunk e p)
    (np : Pt) (hvalid : isValidPoint e np points grid = true) :
    ∀ p ∈ points, farApart e np p := by
  intro p hp
  by_contra hfar
  unfold farApart at hfar
  push_neg at hfar
  have hc := cellSize_pos hok
  have hd0 : 0 ≤ distSq np p := by unfold distSq; positivity
  have hxa : |np.1 - p.1| < e.minDistance := by
    by_contra hcon
    push_neg at hcon
    have h2 : |np.1 - p.1| ^ 2 = (np.1 - p.1) ^ 2 := sq_abs _
    unfold distSq at hfar
    nlinarith [sq_nonneg (np.2 - p.2), hok.md_pos, abs_nonneg (np.1 - p.1)]
  have hza : |np.2 - p.2| < e.minDistance := by
    by_contra hcon
    push_neg at hcon
    have h2 : |np.2 - p.2| ^ 2 = (np.2 - p.2) ^ 2 := sq_abs _
    unfold distSq at hfar
    nlinarith [sq_nonneg (np.1 - p.1), hok.md_pos, abs_nonneg (np.2 - p.2)]
  have hdx : |⌊p.1 / e.cellSize⌋ - ⌊np.1 / e.cellSize⌋| ≤ 2 :=
    abs_lt_imp_floor_diff_le hc (by rwa [abs_sub_comm] at hxa)
      (minDistance_le_two_cellSize hok)
  have hdz : |⌊p.2 / e.cellSize⌋ - ⌊np.2 / e.cellSize⌋| ≤ 2 :=
    abs_lt_imp_floor_diff_le hc (by rwa [abs_sub_comm] at hza)
      (minDistance_le_two_cellSize hok)
  obtain ⟨hpx0, hpx1, hpz0, hpz1⟩ := hinb p hp
  have hbx := floor_div_mem_grid hc hpx0 hpx1
  have hbz := floor_div_mem_grid hc hpz0 hpz1
  have hgwx : ⌊p.1 / e.cellSize⌋ < e.gridWidth := by
    unfold PDEnv.gridWidth; exact hbx.2
  have hgwz : ⌊p.2 / e.cellSize⌋ < e.gridWidth := by
    unfold PDEnv.gridWidth; exact hbz.2
  obtain ⟨⟨i, hi⟩, hpi⟩ := List.mem_iff_get.mp hp
  simp only [isValidPoint, List.all_eq_true] at hvalid
  have hmemz : ⌊p.2 / e.cellSize⌋ - ⌊np.2 / e.cellSize⌋ ∈ searchOffsets := by
    have := abs_le.mp hdz
    simp only [searchOffsets, List.mem_cons, List.not_mem_nil, or_false]
    omega
  have hmemx : ⌊p.1 / e.cellSize⌋ - ⌊np.1 / e.cellSize⌋ ∈ searchOffsets := by
    have := abs_le.mp hdx
    simp only [searchOffsets, List.mem_cons, List.not_mem_nil, or_false]
    omega
  have hbody := hvalid _ hmemz _ hmemx
  rw [show ⌊np.1 / e.cellSize⌋ + (⌊p.1 / e.cellSize⌋ - ⌊np.1 / e.cellSize⌋)
        = ⌊p.1 / e.cellSize⌋ by ring,
      show ⌊np.2 / e.cellSize⌋ + (⌊p.2 / e.cellSize⌋ - ⌊np.2 / e.cellSize⌋)
        = ⌊p.2 / e.cellSize⌋ by ring] at hbody
  rw [if_pos ⟨hbx.1, hgwx, hbz.1, hgwz⟩] at hbody
  have hcell : grid (⌊p.2 / e.cellSize⌋, ⌊p.1 / e.cellSize⌋) = (i : ℤ) := by
    have := hfaith i hi
    rw [hpi] at this
    exact this
  rw [hcell] at hbody
  rw [if_neg (by omega : ¬ ((i : ℤ) = -1))] at hbody
  have hgetD : points.getD ((i : ℤ)).toNat (0, 0) = p := by
    rw [Int.toNat_natCast]
    rw [List.getD_eq_getElem points (0, 0) hi]
    rw [← hpi]
    simp [List.get_eq_getElem]
  rw [hgetD] at hbody
  exact (of_decide_eq_true hbody) (hok.sqrt_lt (distSq np p) hd0 hfar)

/-- Squared distance is symmetric. -/
lemma distSq_comm (p q : Pt) : distSq p q = distSq q p := by
  unfold distSq; ring

/-- farApart is symmetric. -/
lemma farApart_symm {e : PDEnv} {p q : Pt} (h : farApart e p q) :
    farApart e q p := by
  unfold farApart at h ⊢
  rwa [distSq_comm]

/-- An accepted attempt returns a candidate that is inside the chunk and
passed the grid scan. -/
lemma pdAttempts_accepts {e : PDEnv} (points : List Pt) (grid : ℤ × ℤ → ℤ)
    (point : Pt) :
    ∀ (n k : ℕ) (np : Pt) (k2 : ℕ),
      pdAttempts e points grid point n k = (some np, k2) →
      inChunk e np ∧ isValidPoint e np points grid = true := by
  intro n
  induction n with
  | zero =>
      intro k np k2 h
      simp [pdAttempts] at h
  | succ n ih =>
      intro k np k2 h
      simp only [pdAttempts] at h
      split at h
      · split at h
        · simp only [Prod.mk.injEq, Option.some.inj] at h
          obtain ⟨h1, _⟩ := h
          injection h1 with h1
          subst h1
          constructor
          · assumption
          · assumption
        · exact ih _ np k2 h
      · exact ih _ np k2 h

/-- One loop iteration preserves the invariant. -/
lemma pdStep_inv {e : PDEnv} (hok : PDEnvOK e) (st : PDState)
    (hinv : PDInv e st) : PDInv e (pdStep e st) := by
  unfold pdStep
  split
  · exact hinv
  · dsimp only
    split
    case _ np k2 hattempt =>
      obtain ⟨hin, hval⟩ := pdAttempts_accepts st.points st.grid _
        e.maxAttempts (st.k + 1) np k2 hattempt
      have hfar := isValidPoint_far hok st.points st.grid hinv.faith hinv.inb
        np hval
      have nocell : ∀ (j : ℕ) (hj : j < st.points.length),
          e.cellOf (st.points.get ⟨j, hj⟩) ≠ e.cellOf np := by
        intro j hj hcell
        have h1 := same_cell_distSq_lt hok hcell
        have h2 := hfar (st.points.get ⟨j, hj⟩) (st.points.get_mem _ _)
        unfold farApart at h2
        rw [distSq_comm] at h2
        linarith
      constructor
      · refine List.pairwise_append.mpr ⟨hinv.pair, ?_, ?_⟩
        · simp
        · intro p hp q hq
          simp only [List.mem_singleton] at hq
          subst hq
          exact farApart_symm (hfar p hp)
      · intro p hp
        rcases List.mem_append.mp hp with h | h
        · exact hinv.inb p h
        · simp only [List.mem_singleton] at h
          subst h
          exact hin
      · intro j hj
        dsimp only at hj ⊢
        simp only [updGrid]
        have hjlen : j < st.points.length + 1 := by simpa using hj
        by_cases hjl : j < st.points.length
        · have hget : (st.points ++ [np]).get ⟨j, hj⟩ = st.points.get ⟨j, hjl⟩ := by
            simp only [List.get_eq_getElem]
            exact List.getElem_append_left hjl
          rw [hget, if_neg (nocell j hjl)]
          exact hinv.faith j hjl
        · have hje : j = st.points.length := by omega
          subst hje
          have hget : (st.points ++ [np]).get ⟨st.points.length, hj⟩ = np := by
            simp only [List.get_eq_getElem]
            exact List.getElem_concat_length _ _ _ rfl _
          rw [hget, if_pos rfl]
    case _ k2 hattempt =>
      exact ⟨hinv.pair, hinv.inb, hinv.faith⟩

/-- The initial state satisfies the invariant. -/
lemma pdInit_inv {e : PDEnv} (hok : PDEnvOK e) : PDInv e (pdInit e) := by
  have h00 := (hok.stream01 0).1
  have h01 := (hok.stream01 0).2
  have h10 := (hok.stream01 1).1
  have h11 := (hok.stream01 1).2
  have hcs := hok.cs_pos
  constructor
  · simp [pdInit]
  · intro p hp
    simp only [pdInit, List.mem_singleton] at hp
    subst hp
    refine ⟨?_, ?_, ?_, ?_⟩ <;> simp only [] <;> nlinarith
  · intro i hi
    simp only [pdInit, List.length_singleton] at hi
    interval_cases i
    simp [pdInit, updGrid]

/-- Running the loop preserves the invariant. -/
lemma pdRun_inv {e : PDEnv} (hok : PDEnvOK e) :
    ∀ (fuel : ℕ) (st : PDState), PDInv e st → PDInv e (pdRun e fuel st) := by
  intro fuel
  induction fuel with
  | zero => intro st h; exact h
  | succ n ih =>
      intro st h
      unfold pdRun
      split
      · exact h
      · exact ih _ (pdStep_inv hok st h)

/-- C3: any two points accepted by poissonDiskSampling within one chunk are
at least minDistance apart (stated on squared distances: exact arithmetic
needs no floating tolerance).  The acceptance path is the embedded
isValidPoint: the uniform grid of cell size minDistance/sqrt(2) scanned over
a fixed radius of two neighboring cells, as the claim describes. -/
theorem poisson_accepted_points_min_distance (e : PDEnv) (fuel : ℕ)
    (hcs : 0 < e.chunkSize) (hmd : 0 < e.minDistance) (hs : 0 < e.sqrt2)
    (hs2 : 2 ≤ e.sqrt2 ^ 2) (hsle : e.sqrt2 ≤ 2)
    (hstream : ∀ n, 0 ≤ e.stream n ∧ e.stream n < 1)
    (hsqrt : ∀ q : ℚ, 0 ≤ q → q < e.minDistance ^ 2 →
      e.sqrtF q < e.minDistance) :
    (poissonDiskSampling e fuel).Pairwise
      (fun p q => e.minDistance ^ 2 ≤ distSq p q) := by
  have hok : PDEnvOK e := ⟨hcs, hmd, hs, hs2, hsle, hstream, hsqrt⟩
  exact (pdRun_inv hok fuel (pdInit e) (pdInit_inv hok)).pair

/-- C3 witness: the minimum-distance invariant instantiated at the demo
environment with one loop iteration. -/
theorem poisson_accepted_points_min_distance_witness :
    ((0 : ℚ) < pdEnvDemo.chunkSize ∧ 0 < pdEnvDemo.minDistance ∧
      0 < pdEnvDemo.sqrt2 ∧ 2 ≤ pdEnvDemo.sqrt2 ^ 2 ∧ pdEnvDemo.sqrt2 ≤ 2) ∧
    (poissonDiskSampling pdEnvDemo 1).Pairwise
      (fun p q => pdEnvDemo.minDistance ^ 2 ≤ distSq p q) :=
  ⟨⟨by norm_num [pdEnvDemo], by norm_num [pdEnvDemo], by norm_num [pdEnvDemo],
      by norm_num [pdEnvDemo], by norm_num [pdEnvDemo]⟩,
    poisson_accepted_points_min_distance pdEnvDemo 1
      (by norm_num [pdEnvDemo]) (by norm_num [pdEnvDemo])
      (by norm_num [pdEnvDemo]) (by norm_num [pdEnvDemo])
      (by norm_num [pdEnvDemo])
      (fun n => by norm_num [pdEnvDemo])
      (fun q h0 hq => by
        have h25 : q < 25 := by
          have : pdEnvDemo.minDistance ^ 2 = 25 := by norm_num [pdEnvDemo]
          linarith [hq.trans_eq this]
        show (if q < 25 then (0 : ℚ) else 5) < pdEnvDemo.minDistance
        rw [if_pos h25]
        norm_num [pdEnvDemo])⟩

/-! ## Claim C8 : the square spiral -/

/-- Splitting a walk. -/
lemma spiralVisited_add (a b : ℕ) :
    ∀ s : SpiralState,
      spiralVisited (a + b) s
        = spiralVisited a s ++ spiralVisited b (spiralIterN a s) := by
  induction a with
  | zero =>
      intro s
      rw [Nat.zero_add]
      rfl
  | succ a ih =>
      intro s
      rw [show a + 1 + b = (a + b) + 1 from by omega]
      simp only [spiralVisited, spiralIterN]
      rw [ih (spiralIter s)]
      rfl

/-- Splitting an iteration count. -/
lemma spiralIterN_add (a b : ℕ) :
    ∀ s : SpiralState, spiralIterN (a + b) s = spiralIterN b (spiralIterN a s) := by
  induction a with
  | zero =>
      intro s
      rw [Nat.zero_add]
      rfl
  | succ a ih =>
      intro s
      rw [show a + 1 + b = (a + b) + 1 from by omega]
      simp only [spiralIterN]
      exact ih (spiralIter s)

/-- Splitting off the head of a range map. -/
lemma range_map_succ_eq (n : ℕ) (f : ℕ → ℤ × ℤ) :
    (List.range (n + 1)).map f = f 0 :: (List.range n).map (fun j => f (j + 1)) := by
  rw [List.range_succ_eq_map, List.map_cons, List.map_map]
  rfl

/-- A walk that never meets the turn condition goes straight: it visits the
arithmetic line of positions and keeps its direction. -/
lemma spiral_straight (n : ℕ) :
    ∀ x z dx dz : ℤ,
      (∀ j : ℤ, 0 ≤ j → j < n → ¬ turnCond (x + j * dx) (z + j * dz)) →
      spiralVisited n ⟨x, z, dx, dz⟩ = sideWalk x z dx dz n ∧
      spiralIterN n ⟨x, z, dx, dz⟩ = ⟨x + n * dx, z + n * dz, dx, dz⟩ := by
  induction n with
  | zero =>
      intro x z dx dz _
      refine ⟨rfl, ?_⟩
      simp only [spiralIterN, SpiralState.mk.injEq]
      push_cast
      refine ⟨by ring, by ring, trivial, trivial⟩
  | succ n ih =>
      intro x z dx dz h
      have h0 : ¬ turnCond x z := by
        have := h 0 le_rfl (by positivity)
        simpa using this
      have hiter : spiralIter ⟨x, z, dx, dz⟩ = ⟨x + dx, z + dz, dx, dz⟩ := by
        simp only [spiralIter]
        rw [if_neg h0]
      have hshift : ∀ j : ℤ, 0 ≤ j → j < n →
          ¬ turnCond (x + dx + j * dx) (z + dz + j * dz) := by
        intro j hj1 hj2
        have := h (j + 1) (by omega) (by push_cast; omega)
        rw [show x + (j + 1) * dx = x + dx + j * dx from by ring,
            show z + (j + 1) * dz = z + dz + j * dz from by ring] at this
        exact this
      obtain ⟨ihv, ihs⟩ := ih (x + dx) (z + dz) dx dz hshift
      constructor
      · simp only [spiralVisited, hiter, ihv]
        unfold sideWalk
        rw [range_map_succ_eq]
        congr 1
        · simp only [Prod.mk.injEq]
          push_cast
          refine ⟨by ring, by ring⟩
        · refine List.map_congr_left ?_
          intro a _
          simp only [Prod.mk.injEq]
          push_cast
          refine ⟨by ring, by ring⟩
      · simp only [spiralIterN, hiter, ihs, SpiralState.mk.injEq]
        push_cast
        refine ⟨by ring, by ring, trivial, trivial⟩

/-- A walk that turns exactly at its first position: it visits the side in
the turned direction (d1, d2) = (-dz, dx). -/
lemma spiral_side (x z dx dz d1 d2 : ℤ) (hd1 : d1 = -dz) (hd2 : d2 = dx)
    (n : ℕ) (hn : 1 ≤ n) (hturn : turnCond x z)
    (hstraight : ∀ j : ℤ, 1 ≤ j → j < n → ¬ turnCond (x + j * d1) (z + j * d2)) :
    spiralVisited n ⟨x, z, dx, dz⟩ = sideWalk x z d1 d2 n ∧
    spiralIterN n ⟨x, z, dx, dz⟩ = ⟨x + n * d1, z + n * d2, d1, d2⟩ := by
  obtain ⟨m, rfl⟩ : ∃ m, n = m + 1 := ⟨n - 1, by omega⟩
  have hiter : spiralIter ⟨x, z, dx, dz⟩ = ⟨x + d1, z + d2, d1, d2⟩ := by
    rw [hd1, hd2]
    simp only [spiralIter]
    rw [if_pos hturn]
  have hshift : ∀ j : ℤ, 0 ≤ j → j < m →
      ¬ turnCond (x + d1 + j * d1) (z + d2 + j * d2) := by
    intro j hj1 hj2
    have := hstraight (j + 1) (by omega) (by push_cast; omega)
    rw [show x + (j + 1) * d1 = x + d1 + j * d1 from by ring,
        show z + (j + 1) * d2 = z + d2 + j * d2 from by ring] at this
    exact this
  obtain ⟨ihv, ihs⟩ := spiral_straight m (x + d1) (z + d2) d1 d2 hshift
  constructor
  · simp only [spiralVisited, hiter, ihv]
    unfold sideWalk
    rw [range_map_succ_eq]
    congr 1
    · simp only [Prod.mk.injEq]
      push_cast
      refine ⟨by ring, by ring⟩
    · refine List.map_congr_left ?_
      intro a _
      simp only [Prod.mk.injEq]
      push_cast
      refine ⟨by ring, by ring⟩
  · simp only [spiralIterN, hiter, ihs, SpiralState.mk.injEq]
    push_cast
    refine ⟨by ring, by ring, trivial, trivial⟩

/-- One full ring: starting at the ring's entry cell (m, 1-m) heading
right, 8m iterations visit exactly ringList m and leave the walker at the
next ring's entry cell (m+1, -m) heading right. -/
lemma spiral_ring (m : ℕ) (hm : 1 ≤ m) :
    spiralVisited (8 * m) ⟨(m : ℤ), 1 - m, 1, 0⟩ = ringList m ∧
    spiralIterN (8 * m) ⟨(m : ℤ), 1 - m, 1, 0⟩ = ⟨(m : ℤ) + 1, -(m : ℤ), 1, 0⟩ := by
  have s1 := spiral_side (m : ℤ) (1 - m) 1 0 0 1 (by norm_num) rfl (2 * m - 1)
    (by omega) (by unfold turnCond; omega)
    (by intro j h1 h2; unfold turnCond; omega)
  have hs1 : (⟨(m : ℤ) + ((2 * m - 1 : ℕ) : ℤ) * 0,
      1 - (m : ℤ) + ((2 * m - 1 : ℕ) : ℤ) * 1, 0, 1⟩ : SpiralState)
      = ⟨(m : ℤ), (m : ℤ), 0, 1⟩ := by
    simp only [SpiralState.mk.injEq]
    refine ⟨by omega, by omega, trivial, trivial⟩
  have s2 := spiral_side (m : ℤ) m 0 1 (-1) 0 rfl rfl (2 * m)
    (by omega) (by unfold turnCond; omega)
    (by intro j h1 h2; unfold turnCond; omega)
  have hs2 : (⟨(m : ℤ) + ((2 * m : ℕ) : ℤ) * -1,
      (m : ℤ) + ((2 * m : ℕ) : ℤ) * 0, -1, 0⟩ : SpiralState)
      = ⟨-(m : ℤ), (m : ℤ), -1, 0⟩ := by
    simp only [SpiralState.mk.injEq]
    refine ⟨by omega, by omega, trivial, trivial⟩
  have s3 := spiral_side (-(m : ℤ)) m (-1) 0 0 (-1) (by norm_num) rfl (2 * m)
    (by omega) (by unfold turnCond; omega)
    (by intro j h1 h2; unfold turnCond; omega)
  have hs3 : (⟨-(m : ℤ) + ((2 * m : ℕ) : ℤ) * 0,
      (m : ℤ) + ((2 * m : ℕ) : ℤ) * -1, 0, -1⟩ : SpiralState)
      = ⟨-(m : ℤ), -(m : ℤ), 0, -1⟩ := by
    simp only [SpiralState.mk.injEq]
    refine ⟨by omega, by omega, trivial, trivial⟩
  have s4 := spiral_side (-(m : ℤ)) (-(m : ℤ)) 0 (-1) 1 0 (by norm_num) rfl
    (2 * m + 1)
    (by omega) (by unfold turnCond; omega)
    (by intro j h1 h2; unfold turnCond; omega)
  have hs4 : (⟨-(m : ℤ) + ((2 * m + 1 : ℕ) : ℤ) * 1,
      -(m : ℤ) + ((2 * m + 1 : ℕ) : ℤ) * 0, 1, 0⟩ : SpiralState)
      = ⟨(m : ℤ) + 1, -(m : ℤ), 1, 0⟩ := by
    simp only [SpiralState.mk.injEq]
    refine ⟨by omega, by omega, trivial, trivial⟩
  have hsplit : 8 * m = (2 * m - 1) + (2 * m + (2 * m + (2 * m + 1))) := by omega
  rw [hsplit, spiralVisited_add, spiralIterN_add, s1.1, s1.2, hs1,
    spiralVisited_add, spiralIterN_add, s2.1, s2.2, hs2,
    spiralVisited_add, spiralIterN_add, s3.1, s3.2, hs3, s4.1, s4.2, hs4]
  refine ⟨?_, rfl⟩
  simp only [ringList, List.append_assoc]

/-- (2r+1)² iterations from the start visit exactly the radius-r Chebyshev
ball and leave the walker at ring (r+1)'s entry cell. -/
lemma spiral_ball (r : ℕ) :
    spiralVisited ((2 * r + 1) ^ 2) spiralStart = ballList r ∧
    spiralIterN ((2 * r + 1) ^ 2) spiralStart
      = ⟨(r : ℤ) + 1, -(r : ℤ), 1, 0⟩ := by
  induction r with
  | zero =>
      constructor
      · rfl
      · show spiralIterN 1 spiralStart = _
        simp only [spiralIterN, spiralIter, spiralStart]
        rw [if_pos (by unfold turnCond; omega)]
        simp only [SpiralState.mk.injEq]
        norm_num
  | succ r ih =>
      have hsplit : (2 * (r + 1) + 1) ^ 2 = (2 * r + 1) ^ 2 + 8 * (r + 1) := by
        ring
      have hstate : (⟨(r : ℤ) + 1, -(r : ℤ), 1, 0⟩ : SpiralState)
          = ⟨((r + 1 : ℕ) : ℤ), 1 - ((r + 1 : ℕ) : ℤ), 1, 0⟩ := by
        simp only [SpiralState.mk.injEq]
        push_cast
        refine ⟨by ring, by ring, trivial, trivial⟩
      obtain ⟨hr1, hr2⟩ := spiral_ring (r + 1) (by omega)
      rw [hsplit, spiralVisited_add, spiralIterN_add, ih.1, ih.2, hstate,
        hr1, hr2]
      exact ⟨rfl, rfl⟩

/-- Membership in a side walk. -/
lemma mem_sideWalk {x z dx dz : ℤ} {n : ℕ} {p : ℤ × ℤ} :
    p ∈ sideWalk x z dx dz n
      ↔ ∃ j : ℕ, j < n ∧ p = (x + (j : ℤ) * dx, z + (j : ℤ) * dz) := by
  simp only [sideWalk, List.mem_map, List.mem_range]
  constructor
  · rintro ⟨j, hj, rfl⟩
    exact ⟨j, hj, rfl⟩
  · rintro ⟨j, hj, rfl⟩
    exact ⟨j, hj, rfl⟩

/-- Membership in ring m: exactly the cells of Chebyshev norm m. -/
lemma mem_ringList {m : ℕ} (hm : 1 ≤ m) {p : ℤ × ℤ} :
    p ∈ ringList m
      ↔ (-(m : ℤ) ≤ p.1 ∧ p.1 ≤ m ∧ -(m : ℤ) ≤ p.2 ∧ p.2 ≤ m) ∧
        (p.1 = m ∨ p.1 = -(m : ℤ) ∨ p.2 = m ∨ p.2 = -(m : ℤ)) := by
  obtain ⟨x, z⟩ := p
  simp only [ringList, List.mem_append, mem_sideWalk]
  constructor
  · rintro (((⟨j, hj, hp⟩ | ⟨j, hj, hp⟩) | ⟨j, hj, hp⟩) | ⟨j, hj, hp⟩) <;>
      (rw [Prod.mk.injEq] at hp; obtain ⟨h1, h2⟩ := hp; subst h1; subst h2;
       constructor <;> [refine ⟨by omega, by omega, by omega, by omega⟩; omega])
  · rintro ⟨⟨hb1, hb2, hb3, hb4⟩, hedge⟩
    by_cases hz2 : z = -(m : ℤ)
    · refine Or.inr ⟨(x + m).toNat, by omega, ?_⟩
      rw [Prod.mk.injEq]
      refine ⟨by omega, by omega⟩
    · by_cases hz1 : z = (m : ℤ)
      · by_cases hx2 : x = -(m : ℤ)
        · refine Or.inl (Or.inr ⟨(m - z).toNat, by omega, ?_⟩)
          rw [Prod.mk.injEq]
          refine ⟨by omega, by omega⟩
        · refine Or.inl (Or.inl (Or.inr ⟨(m - x).toNat, by omega, ?_⟩))
          rw [Prod.mk.injEq]
          refine ⟨by omega, by omega⟩
      · by_cases hx1 : x = (m : ℤ)
        · refine Or.inl (Or.inl (Or.inl ⟨(z - (1 - m)).toNat, by omega, ?_⟩))
          rw [Prod.mk.injEq]
          refine ⟨by omega, by omega⟩
        · have hx2 : x = -(m : ℤ) := by omega
          refine Or.inl (Or.inr ⟨(m - z).toNat, by omega, ?_⟩)
          rw [Prod.mk.injEq]
          refine ⟨by omega, by omega⟩

/-- Membership in the ball: exactly the cells of Chebyshev norm at most
r. -/
lemma mem_ballList {r : ℕ} {p : ℤ × ℤ} :
    p ∈ ballList r
      ↔ -(r : ℤ) ≤ p.1 ∧ p.1 ≤ r ∧ -(r : ℤ) ≤ p.2 ∧ p.2 ≤ r := by
  induction r with
  | zero =>
      obtain ⟨x, z⟩ := p
      simp only [ballList, List.mem_singleton, Prod.mk.injEq]
      constructor
      · rintro ⟨rfl, rfl⟩
        refine ⟨by omega, by omega, by omega, by omega⟩
      · rintro ⟨h1, h2, h3, h4⟩
        refine ⟨by omega, by omega⟩
  | succ r ih =>
      rw [show ballList (r + 1) = ballList r ++ ringList (r + 1) from rfl,
        List.mem_append, ih, mem_ringList (by omega)]
      constructor
      · rintro (⟨h1, h2, h3, h4⟩ | ⟨⟨h1, h2, h3, h4⟩, hedge⟩) <;>
          refine ⟨by omega, by omega, by omega, by omega⟩
      · rintro ⟨h1, h2, h3, h4⟩
        by_cases hedge : p.1 = ((r + 1 : ℕ) : ℤ) ∨ p.1 = -((r + 1 : ℕ) : ℤ) ∨
            p.2 = ((r + 1 : ℕ) : ℤ) ∨ p.2 = -((r + 1 : ℕ) : ℤ)
        · exact Or.inr ⟨⟨by omega, by omega, by omega, by omega⟩, hedge⟩
        · push_neg at hedge
          exact Or.inl ⟨by omega, by omega, by omega, by omega⟩

/-- Nodup criterion for a side walk. -/
lemma sideWalk_nodup (x z dx dz : ℤ) (n : ℕ)
    (hinj : ∀ a b : ℕ, x + (a : ℤ) * dx = x + (b : ℤ) * dx →
      z + (a : ℤ) * dz = z + (b : ℤ) * dz → a = b) :
    (sideWalk x z dx dz n).Nodup := by
  unfold sideWalk
  refine List.Nodup.map ?_ (List.nodup_range n)
  intro a b h
  rw [Prod.mk.injEq] at h
  exact hinj a b h.1 h.2

/-- Disjointness criterion for two side walks. -/
lemma sideWalk_disjoint (x1 z1 d1x d1z : ℤ) (n1 : ℕ)
    (x2 z2 d2x d2z : ℤ) (n2 : ℕ)
    (hno : ∀ a b : ℕ, a < n1 → b < n2 →
      ¬ (x1 + (a : ℤ) * d1x = x2 + (b : ℤ) * d2x ∧
        z1 + (a : ℤ) * d1z = z2 + (b : ℤ) * d2z)) :
    (sideWalk x1 z1 d1x d1z n1).Disjoint (sideWalk x2 z2 d2x d2z n2) := by
  intro p hp1 hp2
  rw [mem_sideWalk] at hp1 hp2
  obtain ⟨a, ha, rfl⟩ := hp1
  obtain ⟨b, hb, heq⟩ := hp2
  rw [Prod.mk.injEq] at heq
  exact hno a b ha hb ⟨heq.1, heq.2⟩

/-- The walker never revisits a cell within one ring. -/
lemma ringList_nodup {m : ℕ} (hm : 1 ≤ m) : (ringList m).Nodup := by
  have n1 := sideWalk_nodup (m : ℤ) (1 - m) 0 1 (2 * m - 1)
    (by intro a b h1 h2; omega)
  have n2 := sideWalk_nodup (m : ℤ) m (-1) 0 (2 * m)
    (by intro a b h1 h2; omega)
  have n3 := sideWalk_nodup (-(m : ℤ)) m 0 (-1) (2 * m)
    (by intro a b h1 h2; omega)
  have n4 := sideWalk_nodup (-(m : ℤ)) (-(m : ℤ)) 1 0 (2 * m + 1)
    (by intro a b h1 h2; omega)
  have d12 := sideWalk_disjoint (m : ℤ) (1 - m) 0 1 (2 * m - 1)
    (m : ℤ) m (-1) 0 (2 * m)
    (by intro a b ha hb h; obtain ⟨h1, h2⟩ := h; omega)
  have d13 := sideWalk_disjoint (m : ℤ) (1 - m) 0 1 (2 * m - 1)
    (-(m : ℤ)) m 0 (-1) (2 * m)
    (by intro a b ha hb h; obtain ⟨h1, h2⟩ := h; omega)
  have d14 := sideWalk_disjoint (m : ℤ) (1 - m) 0 1 (2 * m - 1)
    (-(m : ℤ)) (-(m : ℤ)) 1 0 (2 * m + 1)
    (by intro a b ha hb h; obtain ⟨h1, h2⟩ := h; omega)
  have d23 := sideWalk_disjoint (m : ℤ) m (-1) 0 (2 * m)
    (-(m : ℤ)) m 0 (-1) (2 * m)
    (by intro a b ha hb h; obtain ⟨h1, h2⟩ := h; omega)
  have d24 := sideWalk_disjoint (m : ℤ) m (-1) 0 (2 * m)
    (-(m : ℤ)) (-(m : ℤ)) 1 0 (2 * m + 1)
    (by intro a b ha hb h; obtain ⟨h1, h2⟩ := h; omega)
  have d34 := sideWalk_disjoint (-(m : ℤ)) m 0 (-1) (2 * m)
    (-(m : ℤ)) (-(m : ℤ)) 1 0 (2 * m + 1)
    (by intro a b ha hb h; obtain ⟨h1, h2⟩ := h; omega)
  unfold ringList
  rw [List.nodup_append, List.nodup_append, List.nodup_append]
  refine ⟨⟨⟨n1, n2, d12⟩, n3, ?_⟩, n4, ?_⟩
  · intro p hp h3
    rcases List.mem_append.mp hp with h | h
    · exact d13 h h3
    · exact d23 h h3
  · intro p hp h4
    rcases List.mem_append.mp hp with h | h
    · rcases List.mem_append.mp h with h2 | h2
      · exact d14 h2 h4
      · exact d24 h2 h4
    · exact d34 h h4

/-- The spiral never revisits a cell across the whole ball. -/
lemma ballList_nodup (r : ℕ) : (ballList r).Nodup := by
  induction r with
  | zero => simp [ballList]
  | succ r ih =>
      rw [show ballList (r + 1) = ballList r ++ ringList (r + 1) from rfl,
        List.nodup_append]
      refine ⟨ih, ringList_nodup (by omega), ?_⟩
      intro p hp hq
      rw [mem_ballList] at hp
      rw [mem_ringList (by omega)] at hq
      obtain ⟨h1, h2, h3, h4⟩ := hp
      obtain ⟨_, hedge⟩ := hq
      omega

/-- The length of a side walk. -/
lemma sideWalk_length (x z dx dz : ℤ) (n : ℕ) :
    (sideWalk x z dx dz n).length = n := by
  simp [sideWalk]

/-- Ring m holds 8m cells. -/
lemma ringList_length {m : ℕ} (hm : 1 ≤ m) : (ringList m).length = 8 * m := by
  simp only [ringList, List.length_append, sideWalk_length]
  omega

/-- The radius-r ball holds (2r+1)² cells. -/
lemma ballList_length (r : ℕ) : (ballList r).length = (2 * r + 1) ^ 2 := by
  induction r with
  | zero => rfl
  | succ r ih =>
      rw [show ballList (r + 1) = ballList r ++ ringList (r + 1) from rfl,
        List.length_append, ih, ringList_length (by omega)]
      have : (2 * (r + 1) + 1) ^ 2 = (2 * r + 1) ^ 2 + 8 * (r + 1) := by ring
      omega

/-- The coordinate-collecting loop is the filtered, center-shifted walk. -/
lemma spiralCoordsAux_eq (center : ℤ × ℤ) (radius : ℤ) :
    ∀ (n : ℕ) (s : SpiralState),
      spiralCoordsAux center radius n s
        = ((spiralVisited n s).filter
            (fun p => decide (|p.1| ≤ radius ∧ |p.2| ≤ radius))).map
            (fun p => (center.1 + p.1, center.2 + p.2)) := by
  intro n
  induction n with
  | zero => intro s; rfl
  | succ n ih =>
      intro s
      simp only [spiralCoordsAux, spiralVisited]
      by_cases h : |s.x| ≤ radius ∧ |s.z| ≤ radius
      · rw [if_pos h, ih (spiralIter s),
          List.filter_cons_of_pos (by simpa using h), List.map_cons]
      · rw [if_neg h, ih (spiralIter s),
          List.filter_cons_of_neg (by simpa using h)]

/-- The source's coords list is the center-shifted Chebyshev ball in spiral
order. -/
lemma spiralCoords_eq_ball (center : ℤ × ℤ) (radius : ℕ) :
    spiralCoords center radius
      = (ballList radius).map (fun p => (center.1 + p.1, center.2 + p.2)) := by
  unfold spiralCoords
  rw [spiralCoordsAux_eq, (spiral_ball radius).1]
  congr 1
  apply List.filter_eq_self.mpr
  intro p hp
  rw [mem_ballList] at hp
  simp only [decide_eq_true_eq]
  exact ⟨abs_le.mpr ⟨hp.1, hp.2.1⟩, abs_le.mpr ⟨hp.2.2.1, hp.2.2.2⟩⟩

/-- A prefix of the ball list completes the smaller ball. -/
lemma ballList_take {k r : ℕ} (h : k ≤ r) :
    (ballList r).take ((2 * k + 1) ^ 2) = ballList k := by
  induction r with
  | zero =>
      have hk0 : k = 0 := by omega
      subst hk0
      rfl
  | succ r ih =>
      by_cases hk : k = r + 1
      · subst hk
        rw [← ballList_length]
        exact List.take_length _
      · have hk2 : k ≤ r := by omega
        rw [show ballList (r + 1) = ballList r ++ ringList (r + 1) from rfl,
          List.take_append_of_le_length
            (by rw [ballList_length]
                exact Nat.pow_le_pow_left (by omega) 2)]
        exact ih hk2

/-- C8: generateChunksSpiral enumerates exactly the (2·radius+1)² chunk
coordinates of the centered square, each exactly once; the enumeration is
in square-spiral order outward from the center (every (2k+1)² prefix is
exactly the radius-k spiral); and the batch loop invokes the per-chunk
generator once per coordinate in that order, returning the chunks in
order. -/
theorem spiral_enumerates_square (center : ℤ × ℤ) (radius : ℕ) :
    (spiralCoords center radius).length = (2 * radius + 1) ^ 2 ∧
    (spiralCoords center radius).Nodup ∧
    (∀ c : ℤ × ℤ, c ∈ spiralCoords center radius ↔
      |c.1 - center.1| ≤ radius ∧ |c.2 - center.2| ≤ radius) ∧
    (∀ k : ℕ, k ≤ radius →
      (spiralCoords center radius).take ((2 * k + 1) ^ 2)
        = spiralCoords center k) ∧
    (∀ (ε β : Type) (f : ℤ × ℤ → β),
      generateChunksSpiral (fun c => (Except.ok (f c) : Except ε β)) center radius
        = Except.ok ((spiralCoords center radius).map f)) := by
  refine ⟨?_, ?_, ?_, ?_, ?_⟩
  · rw [spiralCoords_eq_ball, List.length_map, ballList_length]
  · rw [spiralCoords_eq_ball]
    refine List.Nodup.map ?_ (ballList_nodup radius)
    intro a b h
    rw [Prod.mk.injEq] at h
    obtain ⟨h1, h2⟩ := h
    exact Prod.ext (by omega) (by omega)
  · intro c
    rw [spiralCoords_eq_ball, List.mem_map]
    constructor
    · rintro ⟨p, hp, rfl⟩
      rw [mem_ballList] at hp
      obtain ⟨h1, h2, h3, h4⟩ := hp
      dsimp only
      exact ⟨abs_le.mpr ⟨by omega, by omega⟩, abs_le.mpr ⟨by omega, by omega⟩⟩
    · rintro ⟨h1, h2⟩
      obtain ⟨ha1, ha2⟩ := abs_le.mp h1
      obtain ⟨hb1, hb2⟩ := abs_le.mp h2
      refine ⟨(c.1 - center.1, c.2 - center.2), ?_, ?_⟩
      · rw [mem_ballList]
        exact ⟨by omega, by omega, by omega, by omega⟩
      · exact Prod.ext (by ring) (by ring)
  · intro k hk
    rw [spiralCoords_eq_ball, spiralCoords_eq_ball, ← List.map_take,
      ballList_take hk]
  · intro ε β f
    unfold generateChunksSpiral
    exact runChunks_ok f _
